import Mathlib

/-!
# Verification of the entity/relationship resolution engine (`lib/entitiescreator.js`)

This file gives a shallow embedding, in Lean 4, of the entity-assembly pipeline of
`jhipster-uml`'s `entitiescreator.js`: JavaScript objects with string keys become
association lists (`List (String × _)`) preserving insertion order, in-place mutation
of the parsed model becomes explicit state passing, thrown exceptions become
`Except Err`, and the out-of-scope naming utilities (lodash's `camelCase`,
`snakeCase`) and comment formatter are abstract function parameters bundled in
`StrUtils`.  The theorems at the end of the file settle the specification claims
against these definitions.
-/

set_option autoImplicit false

/-- Identifier of a class in the parsed model (a JS object key). -/
abbrev ClassId := String

/-- Identifier of an association in the parsed model. -/
abbrev AssocId := String

/-- Identifier of a field in the parsed model. -/
abbrev FieldId := String

/-- Identifier of a validation in the parsed model. -/
abbrev ValidationId := String

/-- JS truthiness of an optional string: `undefined` and `""` are falsy. -/
def truthy : Option String → Bool
  | none => false
  | some s => !s.isEmpty

/-- JS `a || b` on an optional string `a` with string default `b`:
returns the string when it is present and non-empty, otherwise the default. -/
def orElseStr (o : Option String) (dflt : String) : String :=
  match o with
  | some s => if s.isEmpty then dflt else s
  | none => dflt

/-- JS `s || dflt` on two strings: the first unless it is empty (falsy). -/
def ifEmptyStr (s dflt : String) : String :=
  if s.isEmpty then dflt else s

/-- lodash `_.lowerFirst`: converts the first character of the string to lower case. -/
def lowerFirst (s : String) : String :=
  match s.data with
  | [] => ""
  | c :: cs => String.mk (c.toLower :: cs)

/-- lodash `_.capitalize`: upper-cases the first character, lower-cases the rest. -/
def capitalize (s : String) : String :=
  match s.data with
  | [] => ""
  | c :: cs => String.mk (c.toUpper :: cs.map Char.toLower)

/-- ASCII lower-casing of a whole string (JS `String.prototype.toLowerCase`). -/
def toLowerStr (s : String) : String :=
  String.mk (s.data.map Char.toLower)

/-- JS `str.replace(c, r)` for one-character pattern and replacement: rewrites
only the first occurrence of `c`. -/
def replaceFirstChar (c r : Char) : List Char → List Char
  | [] => []
  | x :: xs => if x = c then r :: xs else x :: replaceFirstChar c r xs

/-- JS `str.replace(c, "")` for a one-character pattern: deletes only the first
occurrence of `c`. -/
def removeFirstChar (c : Char) : List Char → List Char
  | [] => []
  | x :: xs => if x = c then xs else x :: removeFirstChar c xs

/-- JS `str.split(c)` for a one-character separator: the list of chunks between
occurrences of `c` (the empty string splits to one empty chunk). -/
def splitOnCharList (c : Char) (l : List Char) : List (List Char) :=
  l.foldr
    (fun x acc =>
      match acc with
      | [] => [[x]]
      | h :: t => if x = c then [] :: h :: t else (x :: h) :: t)
    [[]]

/-- Lexicographic comparison of two character lists by code point. -/
def charListLt : List Char → List Char → Bool
  | [], [] => false
  | [], _ :: _ => true
  | _ :: _, [] => false
  | a :: as, b :: bs =>
    if a.toNat < b.toNat then true
    else if b.toNat < a.toNat then false
    else charListLt as bs

/-- Lexicographic comparison of two strings by code point. -/
def strLt (a b : String) : Bool :=
  charListLt a.data b.data

/-- Result of decoding a `"<relationshipName>(<otherEntityField>)"` descriptor
(`extractField`, lines 276-289). -/
structure SplitField where
  otherEntityField : String
  relationshipName : String
deriving DecidableEq, Repr

/-- `extractField` (lines 276-289): decodes a relationship descriptor string; the
other-entity field defaults to `"id"`; a falsy descriptor decodes to an empty
relationship name.  JS `replace` rewrites only the first `(` and the first `)`. -/
def extractField (field : Option String) : SplitField :=
  if truthy field then
    let chunks :=
      (splitOnCharList '/'
        (removeFirstChar ')' (replaceFirstChar '(' '/' (field.getD "").data))).map String.mk
    { otherEntityField := chunks.getD 1 "id"
      relationshipName := chunks.headD "" }
  else
    { otherEntityField := "id", relationshipName := "" }

/-- The four association cardinalities of `lib/cardinalities.js`. -/
inductive Cardinality
  | ONE_TO_ONE
  | ONE_TO_MANY
  | MANY_TO_ONE
  | MANY_TO_MANY
deriving DecidableEq, Repr

/-- An association of the parsed model (`AssociationModel`): directed edge
`afrom → ato` (JS `from`/`to`), a cardinality (JS `type`), and the two optional
injected-field descriptor strings.  The resolver mutates `type` (and re-assigns
`injectedFieldInTo`) in place; the embedding passes the updated model around. -/
structure Association where
  afrom : ClassId
  ato : ClassId
  type : Cardinality
  injectedFieldInFrom : Option String
  injectedFieldInTo : Option String
deriving DecidableEq, Repr

/-- A class of the parsed model (`ClassModel`), with its generation-option defaults. -/
structure ClassModel where
  name : String
  tableName : String
  comment : Option String
  dto : Option String
  pagination : Option String
  service : Option String
  microserviceName : Option String
  searchEngine : Option String
  fields : List FieldId
deriving DecidableEq, Repr

/-- A field of the parsed model (`FieldModel`). -/
structure FieldModel where
  name : String
  comment : Option String
  ftype : String
  validations : List ValidationId
deriving DecidableEq, Repr

/-- A validation of the parsed model (`ValidationModel`). -/
structure ValidationModel where
  name : String
  value : Option String
deriving DecidableEq, Repr

/-- A registered scalar type of the parsed model. -/
structure TypeModel where
  name : String
deriving DecidableEq, Repr

/-- An enumeration of the parsed model. -/
structure EnumModel where
  name : String
  values : List String
deriving DecidableEq, Repr

/-- First-match lookup in an association list, mirroring JS property access
`obj[key]` (string keys are unique in a JS object, so first match is the match). -/
def alookup {α : Type} (k : String) : List (String × α) → Option α
  | [] => none
  | (k', v) :: rest => if k' = k then some v else alookup k rest

/-- In-place update of an association list at a key, mirroring JS property
assignment `obj[key] = v`: the key keeps its position; a fresh key is appended. -/
def aupdate {α : Type} (k : String) (v : α) : List (String × α) → List (String × α)
  | [] => [(k, v)]
  | (k', v') :: rest => if k' = k then (k, v) :: rest else (k', v') :: aupdate k v rest

/-- The parsed model handed to `createEntities` (`parsedData`), with the accessor
maps the code consults (`getClass`, `getField`, `getType`, `getEnum`,
`getValidation`, `getAssociation`).  JS objects become ordered association lists. -/
structure ParsedData where
  classes : List (ClassId × ClassModel)
  associations : List (AssocId × Association)
  pfields : List (FieldId × FieldModel)
  types : List (String × TypeModel)
  enums : List (String × EnumModel)
  validations : List (ValidationId × ValidationModel)
deriving DecidableEq, Repr

/-- `parsedData.getClass(id)`. -/
def ParsedData.getClass (pd : ParsedData) (c : ClassId) : Option ClassModel :=
  alookup c pd.classes

/-- `parsedData.getAssociation(id)`. -/
def ParsedData.getAssociation (pd : ParsedData) (a : AssocId) : Option Association :=
  alookup a pd.associations

/-- `parsedData.getField(id)`. -/
def ParsedData.getField (pd : ParsedData) (f : FieldId) : Option FieldModel :=
  alookup f pd.pfields

/-- `parsedData.getType(id)` / truthiness of `parsedData.types[id]`. -/
def ParsedData.getType (pd : ParsedData) (t : String) : Option TypeModel :=
  alookup t pd.types

/-- `parsedData.getEnum(id)`. -/
def ParsedData.getEnum (pd : ParsedData) (e : String) : Option EnumModel :=
  alookup e pd.enums

/-- `parsedData.getValidation(id)`. -/
def ParsedData.getValidation (pd : ParsedData) (v : ValidationId) : Option ValidationModel :=
  alookup v pd.validations

/-- The keys of `parsedData.classes`, in iteration order. -/
def classKeys (pd : ParsedData) : List ClassId := pd.classes.map (·.1)

/-- The keys of `parsedData.associations`, in iteration order. -/
def assocKeys (pd : ParsedData) : List AssocId := pd.associations.map (·.1)

/-- Replace association `aid`'s record by `a` (in-place JS mutation of an
association object reached through `parsedData.getAssociation`). -/
def ParsedData.setAssociation (pd : ParsedData) (aid : AssocId) (a : Association) :
    ParsedData :=
  { pd with associations := aupdate aid a pd.associations }

/-- The storage-type descriptor handed to `createEntities` (`databaseTypes`). -/
structure DatabaseTypes where
  noSQL : Bool
deriving DecidableEq, Repr

/-- Modelled from the spec: `isNoSQL` of `lib/types/types_helper.js` (not under
`src/`) — the storage-type capability lookup; a descriptor is non-relational
exactly when its NoSQL flag is set. -/
def isNoSQL (db : DatabaseTypes) : Bool := db.noSQL

/-- A previously persisted entity snapshot (`.jhipster/<name>.json`); the pipeline
only consumes its `changelogDate`. -/
structure OnDiskEntity where
  changelogDate : String
deriving DecidableEq, Repr

/-- A field record attached to an entity (`fieldData` of `setFieldsOfEntity`).
Keys that JS sets only conditionally are `Option`s; the dynamic
`fieldValidateRules<Rule>` keys become the `ruleValues` association list. -/
structure FieldRecord where
  fieldId : Nat
  fieldName : String
  javadoc : Option String
  fieldType : Option String
  fieldValues : Option String
  fieldTypeBlobContent : Option String
  fieldValidateRules : Option (List String)
  ruleValues : List (String × Option String)
deriving DecidableEq, Repr

/-- A relationship record attached to an entity (`relationship` /
`otherSideRelationship` of `setRelationshipOfEntity`).  `relationshipId` and
`relationshipType` are always set; every other key is conditional. -/
structure RelationshipRecord where
  relationshipId : Nat
  relationshipType : Cardinality
  relationshipName : Option String
  otherEntityName : Option String
  otherEntityField : Option String
  ownerSide : Option Bool
  otherEntityRelationshipName : Option String
deriving DecidableEq, Repr

/-- An output entity (`initializedEntity` of `initializeEntities`). -/
structure Entity where
  relationships : List RelationshipRecord
  fields : List FieldRecord
  changelogDate : String
  dto : Option String
  pagination : Option String
  service : Option String
  microserviceName : Option String
  searchEngine : Option String
  javadoc : Option String
  entityTableName : String
deriving DecidableEq, Repr

/-- The entity map under construction (the module-level `entities` object). -/
abbrev EntityMap := List (ClassId × Entity)

/-- The exceptions the pipeline can raise (`exception_factory` kinds), plus
`typeError` standing for a JavaScript crash on a dangling reference. -/
inductive Err
  | nullPointer
  | noSQLModeling
  | invalidAssociation
  | typeError
deriving DecidableEq, Repr

/-- The out-of-scope string collaborators: lodash's `camelCase` and `snakeCase`
and the comment formatter of `lib/helpers/comment_helper.js`, which the spec
treats as external interfaces.  (`lowerFirst` and `capitalize` are simple enough
to be embedded concretely above.) -/
structure StrUtils where
  camelCase : String → String
  snakeCase : String → String
  formatComment : Option String → Option String

/-- The argument object accepted by `createEntities` (keys of `args`). -/
structure Args where
  parsedData : Option ParsedData
  databaseTypes : Option DatabaseTypes
  listDTO : Option (List String)
  listPagination : Option (List (String × String))
  listService : Option (List (String × String))
  microserviceNames : Option (List (String × String))
  searchEngines : Option (List String)

/-- The option collections after merging with `defaults()` (lines 173-181). -/
structure MergedArgs where
  listDTO : List String
  listPagination : List (String × String)
  listService : List (String × String)
  microserviceNames : List (String × String)
  searchEngines : List String
deriving DecidableEq, Repr

/-- Modelled from the spec: `merge` of `lib/utils/object_utils.js` (not under
`src/`) applied to `defaults()` and `args` — caller-supplied collections win over
the engine defaults, which are the empty collections (lines 43, 173-181). -/
def mergeWithDefaults (args : Args) : MergedArgs :=
  { listDTO := args.listDTO.getD []
    listPagination := args.listPagination.getD []
    listService := args.listService.getD []
    microserviceNames := args.microserviceNames.getD []
    searchEngines := args.searchEngines.getD [] }

/-- The UTC wall-clock reading taken by `dateFormatForLiquibase` (lines 122-129):
the `new Date()` value projected to its UTC components, truncated to whole
seconds.  `month` is 0-based exactly as JS `getMonth()`. -/
structure UTCTime where
  year : Nat
  month : Nat
  day : Nat
  hour : Nat
  minute : Nat
  second : Nat
deriving DecidableEq, Repr

/-- `dateFormatForLiquibase` (lines 121-152), faithfully including the
template-literal typo on line 145: a one-digit minute produces the literal text
`0\x7bminute\x7d` (the `$` of the interpolation is missing in the source), and the
seconds field is `(seconds + increment) % 60` with no carry into the minutes. -/
def dateFormatForLiquibase (now : UTCTime) (increment : Nat) : String :=
  let year := toString now.year
  let month := toString (now.month + 1)
  let month := if month.length = 1 then "0" ++ month else month
  let day := toString now.day
  let day := if day.length = 1 then "0" ++ day else day
  let hour := toString now.hour
  let hour := if hour.length = 1 then "0" ++ hour else hour
  let minute := toString now.minute
  let minute := if minute.length = 1 then "0\x7bminute\x7d" else minute
  let second := toString ((now.second + increment) % 60)
  let second := if second.length = 1 then "0" ++ second else second
  year ++ month ++ day ++ hour ++ minute ++ second

/-- `getChangelogDate` (lines 114-119): reuse the on-disk snapshot's changelog
date when one was loaded for this class, otherwise format a fresh one. -/
def getChangelogDate (onDisk : List (ClassId × OnDiskEntity)) (now : UTCTime)
    (classId : ClassId) (increment : Nat) : String :=
  match alookup classId onDisk with
  | some e => e.changelogDate
  | none => dateFormatForLiquibase now increment

/-- `readJSONFiles` (lines 77-86): for each class, in iteration order, load the
snapshot file named after the class when it exists.  The filesystem is modelled
as an association list from class name to parsed snapshot. -/
def readJSONFiles (fsys : List (String × OnDiskEntity)) (pd : ParsedData) :
    List (ClassId × OnDiskEntity) :=
  pd.classes.foldl
    (fun acc p =>
      match alookup p.2.name fsys with
      | some e => acc ++ [(p.1, e)]
      | none => acc)
    []

/-- The snapshot entries `readJSONFiles` collects, as a filter-map over the
classes: one entry per class whose snapshot file exists. -/
def readJSONentries (fsys : List (String × OnDiskEntity))
    (L : List (ClassId × ClassModel)) : List (ClassId × OnDiskEntity) :=
  L.filterMap (fun p => (alookup p.2.name fsys).map (fun e => (p.1, e)))

/-- `setOptions` (lines 154-171): apply the per-entity override collections. -/
def setOptions (merged : MergedArgs) (entity : Entity) (entityName : String) : Entity :=
  let entity :=
    if merged.listDTO.contains entityName then { entity with dto := some "mapstruct" }
    else entity
  let entity :=
    match alookup entityName merged.listPagination with
    | some v => { entity with pagination := some v }
    | none => entity
  let entity :=
    match alookup entityName merged.listService with
    | some v => { entity with service := some v }
    | none => entity
  let entity :=
    match alookup entityName merged.microserviceNames with
    | some v => { entity with microserviceName := some v }
    | none => entity
  let entity :=
    if merged.searchEngines.contains entityName then
      { entity with searchEngine := some "elasticsearch" }
    else entity
  entity

/-- The fresh entity record built for one class (`initializedEntity`,
lines 92-103), before the option overrides are applied. -/
def initializedEntity (U : StrUtils) (onDisk : List (ClassId × OnDiskEntity))
    (now : UTCTime) (classId : ClassId) (increment : Nat) (cl : ClassModel) : Entity :=
  { relationships := []
    fields := []
    changelogDate := getChangelogDate onDisk now classId increment
    dto := cl.dto
    pagination := cl.pagination
    service := cl.service
    microserviceName := cl.microserviceName
    searchEngine := cl.searchEngine
    javadoc := U.formatComment cl.comment
    entityTableName := U.snakeCase cl.tableName }

/-- `initializeEntities` (lines 88-112): one fresh entity per class, in class
iteration order, with the 0-based ordinal as the changelog-date increment,
option overrides applied on top. -/
def initializeEntities (U : StrUtils) (merged : MergedArgs)
    (onDisk : List (ClassId × OnDiskEntity)) (now : UTCTime) (pd : ParsedData) :
    EntityMap :=
  pd.classes.enum.map (fun p =>
    (p.2.1, setOptions merged (initializedEntity U onDisk now p.2.1 p.1 p.2.2) p.2.2.name))

/-- `setValidationsOfField` (lines 237-251): a field with no validations keeps no
rule list at all; otherwise the rule names are collected in order and every rule
other than `required` additionally records its value under the dynamic key
`fieldValidateRules<CapitalizedRule>`. -/
def setValidationsOfField (pd : ParsedData) (field : FieldRecord) (fieldId : FieldId) :
    Except Err FieldRecord :=
  match pd.getField fieldId with
  | none => Except.error .typeError
  | some fm =>
    if fm.validations.length = 0 then
      Except.ok field
    else
      fm.validations.foldlM
        (fun fld validationId =>
          match pd.getValidation validationId with
          | none => Except.error .typeError
          | some validation =>
            let fld := { fld with
              fieldValidateRules := some ((fld.fieldValidateRules.getD []) ++ [validation.name]) }
            if validation.name ≠ "required" then
              Except.ok { fld with
                ruleValues := fld.ruleValues ++
                  [("fieldValidateRules" ++ capitalize validation.name, validation.value)] }
            else
              Except.ok fld)
        { field with fieldValidateRules := some [] }

/-- The body of the `fields.forEach` loop of `setFieldsOfEntity` (lines 210-234):
one `FieldRecord` with 1-based sequence id, the declared type resolved against
the registered types then the enumerations, blob types rewritten, and the
validations attached. -/
def setFieldStep (U : StrUtils) (pd : ParsedData) (classId : ClassId)
    (ents : EntityMap) (fieldId : FieldId) : Except Err EntityMap :=
  match alookup classId ents with
  | none => Except.error .typeError
  | some entity =>
    match pd.getField fieldId with
    | none => Except.error .typeError
    | some fm =>
      let fieldData : FieldRecord := {
        fieldId := entity.fields.length + 1
        fieldName := U.camelCase fm.name
        javadoc := U.formatComment fm.comment
        fieldType := none, fieldValues := none, fieldTypeBlobContent := none
        fieldValidateRules := none, ruleValues := [] }
      let fieldData :=
        match pd.getType fm.ftype with
        | some t => { fieldData with fieldType := some t.name }
        | none =>
          match pd.getEnum fm.ftype with
          | some e => { fieldData with
              fieldType := some e.name
              fieldValues := some (String.intercalate "," e.values) }
          | none => fieldData
      let fieldData :=
        if fieldData.fieldType = some "ImageBlob" then
          { fieldData with fieldType := some "byte[]", fieldTypeBlobContent := some "image" }
        else if fieldData.fieldType = some "Blob" ∨ fieldData.fieldType = some "AnyBlob" then
          { fieldData with fieldType := some "byte[]", fieldTypeBlobContent := some "any" }
        else fieldData
      match setValidationsOfField pd fieldData fieldId with
      | Except.error e => Except.error e
      | Except.ok fieldData =>
        Except.ok (aupdate classId
          { entity with fields := entity.fields ++ [fieldData] } ents)

/-- `setFieldsOfEntity` (lines 209-235): map each class field, in declaration
order, through `setFieldStep`. -/
def setFieldsOfEntity (U : StrUtils) (pd : ParsedData) (ents : EntityMap)
    (classId : ClassId) : Except Err EntityMap :=
  match alookup classId pd.classes with
  | none => Except.error .typeError
  | some cl =>
    cl.fields.foldlM (setFieldStep U pd classId) ents

/-- The per-class partition of `getRelatedAssociations` (lines 253-268): an
association is in the `from` group when its source is the class; it is in the
`to` group when its target is the class *and* it declares a (truthy) injected
field on the `to` side. -/
structure RelatedAssociations where
  rfrom : List AssocId
  rto : List AssocId
deriving DecidableEq, Repr

/-- `getRelatedAssociations` (lines 253-268). -/
def getRelatedAssociations (classId : ClassId)
    (associations : List (AssocId × Association)) : RelatedAssociations :=
  { rfrom := (associations.filter (fun p => p.2.afrom == classId)).map (·.1)
    rto := (associations.filter
      (fun p => p.2.ato == classId && truthy p.2.injectedFieldInTo)).map (·.1) }

/-- Modelled from the spec: `checkValidityOfAssociation` of
`lib/helpers/association_helper.js` (not under `src/`) — the validation step run
before from-side emission, which "verifies the association's endpoints are
structurally valid (non-null distinct class references of compatible kinds)" and
on failure "raises an association-validity error naming both endpoint class
names".  Modelled as requiring both resolved endpoint class names to be non-null
(non-empty). -/
def checkValidityOfAssociation (fromName toName : String) : Bool :=
  !fromName.isEmpty && !toName.isEmpty

/-- The empty relationship record skeleton shared by both emission sites
(lines 304-307 and 352-355): sequence id and cardinality only. -/
def baseRelationship (seqId : Nat) (t : Cardinality) : RelationshipRecord :=
  { relationshipId := seqId
    relationshipType := t
    relationshipName := none, otherEntityName := none, otherEntityField := none
    ownerSide := none, otherEntityRelationshipName := none }

/-- Append a relationship record to the entity stored at `classId`
(JS `entities[classId].relationships.push(r)`); the entity is known to exist. -/
def pushRelationship (ents : EntityMap) (classId : ClassId) (ent : Entity)
    (r : RelationshipRecord) : EntityMap :=
  aupdate classId { ent with relationships := ent.relationships ++ [r] } ents

/-- The body of the `associations.from.forEach` loop of `setRelationshipOfEntity`
(lines 296-347): validity check, then the cardinality-specific from-side record;
a `ONE_TO_MANY` without a truthy `injectedFieldInTo` additionally synthesizes the
inverse `MANY_TO_ONE` record on the target entity and rewrites the association's
stored cardinality; the from-side record itself is pushed unconditionally at the
end (line 346). -/
def fromSideStep (U : StrUtils) (classId : ClassId) :
    EntityMap × ParsedData → AssocId → Except Err (EntityMap × ParsedData)
  | (ents, pd), associationId =>
  match alookup associationId pd.associations with
  | none => Except.error .typeError
  | some association =>
    match alookup association.afrom pd.classes, alookup association.ato pd.classes with
    | some fromClass, some toClass =>
      if checkValidityOfAssociation fromClass.name toClass.name then
        match alookup classId ents with
        | none => Except.error .typeError
        | some entC =>
          let relationship := baseRelationship (entC.relationships.length + 1) association.type
          match association.type with
          | .ONE_TO_ONE =>
            let splitField := extractField association.injectedFieldInFrom
            let relationship := { relationship with
              relationshipName := some (U.camelCase splitField.relationshipName)
              otherEntityName := some (lowerFirst (U.camelCase toClass.name))
              otherEntityField := some (lowerFirst splitField.otherEntityField)
              ownerSide := some true
              otherEntityRelationshipName :=
                some (lowerFirst (orElseStr association.injectedFieldInTo fromClass.name)) }
            Except.ok (pushRelationship ents classId entC relationship, pd)
          | .ONE_TO_MANY =>
            let splitField := extractField association.injectedFieldInFrom
            let otherSplitField := extractField association.injectedFieldInTo
            let relationship := { relationship with
              relationshipName :=
                some (lowerFirst (U.camelCase (ifEmptyStr splitField.relationshipName toClass.name)))
              otherEntityName := some (lowerFirst (U.camelCase toClass.name))
              otherEntityRelationshipName := some (lowerFirst otherSplitField.relationshipName) }
            if truthy association.injectedFieldInTo then
              Except.ok (pushRelationship ents classId entC relationship, pd)
            else
              let relationship := { relationship with
                otherEntityRelationshipName := some (lowerFirst fromClass.name) }
              match alookup association.ato ents with
              | none => Except.error .typeError
              | some entTo =>
                let otherSideRelationship : RelationshipRecord := {
                  relationshipId := entTo.relationships.length + 1
                  relationshipName := some (U.camelCase (lowerFirst fromClass.name))
                  otherEntityName := some (lowerFirst (U.camelCase fromClass.name))
                  relationshipType := .MANY_TO_ONE
                  otherEntityField := some (lowerFirst otherSplitField.otherEntityField)
                  ownerSide := none, otherEntityRelationshipName := none }
                let pd2 := pd.setAssociation associationId
                  { association with type := .MANY_TO_ONE }
                let ents2 := pushRelationship ents association.ato entTo otherSideRelationship
                match alookup classId ents2 with
                | none => Except.error .typeError
                | some entC2 =>
                  Except.ok (pushRelationship ents2 classId entC2 relationship, pd2)
          | .MANY_TO_ONE =>
            if truthy association.injectedFieldInFrom then
              let splitField := extractField association.injectedFieldInFrom
              let relationship := { relationship with
                relationshipName := some (U.camelCase splitField.relationshipName)
                otherEntityName := some (lowerFirst (U.camelCase toClass.name))
                otherEntityField := some (lowerFirst splitField.otherEntityField) }
              Except.ok (pushRelationship ents classId entC relationship, pd)
            else
              Except.ok (pushRelationship ents classId entC relationship, pd)
          | .MANY_TO_MANY =>
            let splitField := extractField association.injectedFieldInFrom
            let relationship := { relationship with
              relationshipName := some (U.camelCase splitField.relationshipName)
              otherEntityName := some (lowerFirst (U.camelCase toClass.name))
              otherEntityField := some (lowerFirst splitField.otherEntityField)
              ownerSide := some true }
            Except.ok (pushRelationship ents classId entC relationship, pd)
      else Except.error .invalidAssociation
    | _, _ => Except.error .typeError

/-- The body of the `associations.to.forEach` loop of `setRelationshipOfEntity`
(lines 348-382): the to-side record; a `ONE_TO_MANY` reports its type as
`MANY_TO_ONE` and re-assigns the association's `injectedFieldInTo` (line 364 —
note the source defaults it with `_.lowerFirst(association.from)`, the class
*identifier*, though the default is unreachable because membership in the `to`
group already requires a truthy `injectedFieldInTo`); the record is pushed
unconditionally at the end (line 381). -/
def toSideStep (U : StrUtils) (classId : ClassId) :
    EntityMap × ParsedData → AssocId → Except Err (EntityMap × ParsedData)
  | (ents, pd), associationId =>
  match alookup associationId pd.associations with
  | none => Except.error .typeError
  | some association =>
    match alookup classId ents with
    | none => Except.error .typeError
    | some entC =>
      let relationship := baseRelationship (entC.relationships.length + 1)
        (if association.type = .ONE_TO_MANY then .MANY_TO_ONE else association.type)
      match association.type with
      | .ONE_TO_ONE =>
        match alookup association.afrom pd.classes with
        | none => Except.error .typeError
        | some fromClass =>
          let splitField := extractField association.injectedFieldInTo
          let otherSplitField := extractField association.injectedFieldInFrom
          let relationship := { relationship with
            relationshipName := some (U.camelCase splitField.relationshipName)
            otherEntityName := some (lowerFirst (U.camelCase fromClass.name))
            ownerSide := some false
            otherEntityRelationshipName := some (lowerFirst otherSplitField.relationshipName) }
          Except.ok (pushRelationship ents classId entC relationship, pd)
      | .ONE_TO_MANY =>
        match alookup association.afrom pd.classes with
        | none => Except.error .typeError
        | some fromClass =>
          let association := { association with
            injectedFieldInTo :=
              some (orElseStr association.injectedFieldInTo (lowerFirst association.afrom)) }
          let pd2 := pd.setAssociation associationId association
          let splitField := extractField association.injectedFieldInTo
          let relationship := { relationship with
            relationshipName :=
              some (lowerFirst (U.camelCase (ifEmptyStr splitField.relationshipName fromClass.name)))
            otherEntityName := some (lowerFirst (U.camelCase fromClass.name))
            otherEntityField := some (lowerFirst splitField.otherEntityField) }
          Except.ok (pushRelationship ents classId entC relationship, pd2)
      | .MANY_TO_ONE =>
        if truthy association.injectedFieldInTo then
          match alookup association.afrom pd.classes with
          | none => Except.error .typeError
          | some fromClass =>
            let splitField := extractField association.injectedFieldInTo
            let relationship := { relationship with
              relationshipName := some (U.camelCase splitField.relationshipName)
              otherEntityName := some (lowerFirst (U.camelCase fromClass.name))
              otherEntityField := some (lowerFirst splitField.otherEntityField) }
            Except.ok (pushRelationship ents classId entC relationship, pd)
        else
          Except.ok (pushRelationship ents classId entC relationship, pd)
      | .MANY_TO_MANY =>
        match alookup association.afrom pd.classes with
        | none => Except.error .typeError
        | some fromClass =>
          let splitField := extractField association.injectedFieldInTo
          let relationship := { relationship with
            relationshipName := some (U.camelCase splitField.relationshipName)
            otherEntityName := some (lowerFirst (U.camelCase fromClass.name))
            ownerSide := some false
            otherEntityRelationshipName :=
              some (lowerFirst (extractField association.injectedFieldInFrom).relationshipName) }
          Except.ok (pushRelationship ents classId entC relationship, pd)

/-- `setRelationshipOfEntity` (lines 291-383): partition the associations for the
class once, then run the from-side loop and the to-side loop. -/
def setRelationshipOfEntity (U : StrUtils) (pd : ParsedData) (ents : EntityMap)
    (classId : ClassId) : Except Err (EntityMap × ParsedData) :=
  let associations := getRelatedAssociations classId pd.associations
  match associations.rfrom.foldlM (fromSideStep U classId) (ents, pd) with
  | Except.error e => Except.error e
  | Except.ok st => associations.rto.foldlM (toSideStep U classId) st

/-- The name whose case-insensitive match marks a class for suppression (line 15). -/
def USER : String := "user"

/-- The body of the per-class loop of `fillEntities` (lines 184-202): mark a
class named `User` (case-insensitively) for suppression, then assemble its
fields and relationships.  The state is (suppression list, entity map, model). -/
def resolveStep (U : StrUtils) :
    List ClassId × EntityMap × ParsedData → ClassId →
    Except Err (List ClassId × EntityMap × ParsedData)
  | (supp0, ents0, pd), classId =>
  match alookup classId pd.classes with
  | none => Except.error .typeError
  | some cl =>
    let supp := if toLowerStr cl.name = USER then supp0 ++ [classId] else supp0
    match setFieldsOfEntity U pd ents0 classId with
    | Except.error e => Except.error e
    | Except.ok ents =>
      match setRelationshipOfEntity U pd ents classId with
      | Except.error e => Except.error e
      | Except.ok stp => Except.ok (supp, stp.1, stp.2)

/-- The resolution pass of `fillEntities` (lines 184-202): the per-class loop
over the class keys, before any suppression. -/
def resolveAll (U : StrUtils) (pd : ParsedData) (ents : EntityMap) :
    Except Err (List ClassId × EntityMap × ParsedData) :=
  (classKeys pd).foldlM (resolveStep U) ([], ents, pd)

/-- Deletion of the suppressed entities (lines 204-206), run only after every
class has been resolved. -/
def suppressEntities (supp : List ClassId) (ents : EntityMap) : EntityMap :=
  supp.foldl (fun m c => m.filter (fun p => p.1 != c)) ents

/-- `fillEntities` (lines 183-207): resolve every class, then delete the
suppressed entities. -/
def fillEntities (U : StrUtils) (pd : ParsedData) (ents : EntityMap) :
    Except Err (EntityMap × ParsedData) :=
  match resolveAll U pd ents with
  | Except.error e => Except.error e
  | Except.ok r => Except.ok (suppressEntities r.1 r.2.1, r.2.2)

/-- `createEntities` (lines 42-55): merge the options with the defaults, require
the parsed model and storage descriptor, reject associations under NoSQL
storage, load the snapshots, initialize and then fill the entities.  The
filesystem and the wall clock are passed in as parameters; the returned pair
also exposes the (mutated) parsed model, which the JS code updates in place. -/
def createEntities (U : StrUtils) (fsys : List (String × OnDiskEntity)) (now : UTCTime)
    (args : Args) : Except Err (EntityMap × ParsedData) :=
  let merged := mergeWithDefaults args
  match args.parsedData, args.databaseTypes with
  | some pd, some db =>
    if isNoSQL db && pd.associations.length != 0 then
      Except.error .noSQLModeling
    else
      let onDisk := readJSONFiles fsys pd
      let ents := initializeEntities U merged onDisk now pd
      fillEntities U pd ents
  | _, _ => Except.error .nullPointer

/-- Concrete string utilities for the concrete models below: on their single-word
alphanumeric names lodash's `camelCase` coincides with `lowerFirst`. -/
def Utest : StrUtils :=
  { camelCase := lowerFirst
    snakeCase := toLowerStr
    formatComment := fun c => c }

/-- A minimal class record for the concrete models. -/
def mkClass (name : String) : ClassModel :=
  { name := name, tableName := name, comment := none, dto := none,
    pagination := none, service := none, microserviceName := none,
    searchEngine := none, fields := [] }

/-- The `Author`→`Book` model of the spec's `ONE_TO_MANY` example: injected field
`"books"` on the from side, nothing on the to side. -/
def pdAuthorBook : ParsedData :=
  { classes := [("c1", mkClass "Author"), ("c2", mkClass "Book")]
    associations := [("a1",
      { afrom := "c1", ato := "c2", type := .ONE_TO_MANY,
        injectedFieldInFrom := some "books", injectedFieldInTo := none })]
    pfields := [], types := [], enums := [], validations := [] }

/-- Wrap a parsed model into a full argument object with relational storage and
no override collections. -/
def argsOf (pd : ParsedData) : Args :=
  { parsedData := some pd, databaseTypes := some { noSQL := false },
    listDTO := none, listPagination := none, listService := none,
    microserviceNames := none, searchEngines := none }

/-- A fixed wall-clock reading for the concrete models. -/
def tnow : UTCTime :=
  { year := 2016, month := 0, day := 1, hour := 12, minute := 30, second := 10 }

/-- The number of relationship records currently attached to the entity stored
under `k` (0 when no entity is stored there). -/
def relLen (ents : EntityMap) (k : ClassId) : Nat :=
  match alookup k ents with
  | some e => e.relationships.length
  | none => 0

/-- The changelog date of the entity stored under `k`, when present. -/
def chDate (ents : EntityMap) (k : ClassId) : Option String :=
  (alookup k ents).map (·.changelogDate)

/-- How many relationship records the *from-side* processing of an association
appends to the entity stored under `k`: one on the source entity, plus the
synthesized inverse on the target entity for a `ONE_TO_MANY` without a truthy
`injectedFieldInTo`. -/
def fromContribution (a : Association) (k : ClassId) : Nat :=
  (if k = a.afrom then 1 else 0) +
  (if a.type = .ONE_TO_MANY ∧ truthy a.injectedFieldInTo = false ∧ k = a.ato then 1 else 0)

/-- How many relationship records the *to-side* processing of an association
appends to the entity stored under `k`: one on the target entity, and only when
the association declares a truthy `injectedFieldInTo` (the `to`-group membership
condition of `getRelatedAssociations`). -/
def toContribution (a : Association) (k : ClassId) : Nat :=
  if truthy a.injectedFieldInTo = true ∧ k = a.ato then 1 else 0

/-- Total number of relationship records attributable to an association on the
entity stored under `k`, across the whole pipeline. -/
def attributedCount (a : Association) (k : ClassId) : Nat :=
  fromContribution a k + toContribution a k

/-- Total number of relationship records attributable to an association across
all entities. -/
def attributedTotal (a : Association) : Nat :=
  (1 + (if a.type = .ONE_TO_MANY ∧ truthy a.injectedFieldInTo = false then 1 else 0)) +
  (if truthy a.injectedFieldInTo = true then 1 else 0)

/-- The relationship records class `c`'s resolution pass appends to the entity
stored under `k`: the from-side contributions of `c`'s `from` group and one
record on `c` itself per member of `c`'s `to` group. -/
def classContribution (pd : ParsedData) (c : ClassId) (k : ClassId) : Nat :=
  ((pd.associations.filter (fun p => p.2.afrom == c)).map
      (fun p => fromContribution p.2 k)).sum +
  ((pd.associations.filter (fun p => p.2.ato == c && truthy p.2.injectedFieldInTo)).map
      (fun _ => if k = c then 1 else 0)).sum

/-- The in-place rewrite the resolver applies to an association entry once its
source class has been processed: a `ONE_TO_MANY` without a truthy
`injectedFieldInTo` has been rewritten to `MANY_TO_ONE` exactly when its id is in
the processed set `D`. -/
def resolveOne (D : List AssocId) (p : AssocId × Association) : AssocId × Association :=
  if p.1 ∈ D ∧ p.2.type = .ONE_TO_MANY ∧ truthy p.2.injectedFieldInTo = false
  then (p.1, { p.2 with type := .MANY_TO_ONE }) else p

/-- The parsed model after the from-side loops of the associations in `D` have
run: associations rewritten by `resolveOne`, everything else untouched. -/
def resolvedPd (pd : ParsedData) (D : List AssocId) : ParsedData :=
  { pd with associations := pd.associations.map (resolveOne D) }

/-- Whether the class stored under `c` is named `User` case-insensitively
(the suppression condition of `fillEntities`, line 191). -/
def isUserClass (pd : ParsedData) (c : ClassId) : Bool :=
  match alookup c pd.classes with
  | some cl => toLowerStr cl.name == USER
  | none => false

/-- The prefix of a Liquibase changelog date that does not depend on the
increment: year, month, day, hour and minute fields. -/
def datePrefix (now : UTCTime) : String :=
  let year := toString now.year
  let month := toString (now.month + 1)
  let month := if month.length = 1 then "0" ++ month else month
  let day := toString now.day
  let day := if day.length = 1 then "0" ++ day else day
  let hour := toString now.hour
  let hour := if hour.length = 1 then "0" ++ hour else hour
  let minute := toString now.minute
  let minute := if minute.length = 1 then "0\x7bminute\x7d" else minute
  year ++ month ++ day ++ hour ++ minute

/-- The seconds field of a Liquibase changelog date: the value modulo 60,
zero-padded to two digits. -/
def secondsSuffix (n : Nat) : String :=
  let second := toString (n % 60)
  if second.length = 1 then "0" ++ second else second

/-- A `MANY_TO_ONE` association with only the to-side injected field specified. -/
def pdM2Oto : ParsedData :=
  { classes := [("c1", mkClass "Author"), ("c2", mkClass "Book")]
    associations := [("a1",
      { afrom := "c1", ato := "c2", type := .MANY_TO_ONE,
        injectedFieldInFrom := none, injectedFieldInTo := some "writers" })]
    pfields := [], types := [], enums := [], validations := [] }

/-- A `MANY_TO_ONE` association with no injected field on either side. -/
def pdM2Onone : ParsedData :=
  { classes := [("c1", mkClass "Author"), ("c2", mkClass "Book")]
    associations := [("a1",
      { afrom := "c1", ato := "c2", type := .MANY_TO_ONE,
        injectedFieldInFrom := none, injectedFieldInTo := none })]
    pfields := [], types := [], enums := [], validations := [] }

/-- A `ONE_TO_ONE` association with no to-side injected field. -/
def pdO2Onone : ParsedData :=
  { classes := [("c1", mkClass "Author"), ("c2", mkClass "Book")]
    associations := [("a1",
      { afrom := "c1", ato := "c2", type := .ONE_TO_ONE,
        injectedFieldInFrom := some "book", injectedFieldInTo := none })]
    pfields := [], types := [], enums := [], validations := [] }

/-- A `ONE_TO_ONE` association whose to-side injected field carries an
other-entity field in parentheses. -/
def pdO2Oraw : ParsedData :=
  { classes := [("c1", mkClass "Author"), ("c2", mkClass "Book")]
    associations := [("a1",
      { afrom := "c1", ato := "c2", type := .ONE_TO_ONE,
        injectedFieldInFrom := some "book", injectedFieldInTo := some "owner(name)" })]
    pfields := [], types := [], enums := [], validations := [] }

/-- A wall-clock reading whose minute field is one digit (exposes line 145). -/
def tMin5 : UTCTime :=
  { year := 2016, month := 0, day := 1, hour := 0, minute := 5, second := 30 }

/-- A wall-clock reading one second before a minute boundary (exposes the
carry-free `% 60` of line 147). -/
def tWrap : UTCTime :=
  { year := 2016, month := 0, day := 1, hour := 0, minute := 30, second := 59 }

/-- The parsed model of `pdAuthorBook` after one run: the association's stored
cardinality has been rewritten to `MANY_TO_ONE`. -/
def pdAB1 : ParsedData :=
  { classes := [("c1", mkClass "Author"), ("c2", mkClass "Book")]
    associations := [("a1",
      { afrom := "c1", ato := "c2", type := .MANY_TO_ONE,
        injectedFieldInFrom := some "books", injectedFieldInTo := none })]
    pfields := [], types := [], enums := [], validations := [] }

/-- The entity map produced by running the pipeline on `pdAuthorBook` with the
`Utest` utilities, empty filesystem and clock `tnow`. -/
def outAB : EntityMap :=
  [("c1",
    { relationships := [
        { relationshipId := 1, relationshipType := .ONE_TO_MANY,
          relationshipName := some "books", otherEntityName := some "book",
          otherEntityField := none, ownerSide := none,
          otherEntityRelationshipName := some "author" }]
      fields := [], changelogDate := "20160101123010", dto := none,
      pagination := none, service := none, microserviceName := none,
      searchEngine := none, javadoc := none, entityTableName := "author" }),
   ("c2",
    { relationships := [
        { relationshipId := 1, relationshipType := .MANY_TO_ONE,
          relationshipName := some "author", otherEntityName := some "author",
          otherEntityField := some "id", ownerSide := none,
          otherEntityRelationshipName := none }]
      fields := [], changelogDate := "20160101123011", dto := none,
      pagination := none, service := none, microserviceName := none,
      searchEngine := none, javadoc := none, entityTableName := "book" })]

/-- A filesystem carrying a snapshot for the `Author` class. -/
def fsysAB : List (String × OnDiskEntity) :=
  [("Author", { changelogDate := "20150101000000" })]

/-- A model declaring a class named `User` next to an ordinary class, with an
association pointing into the `User` class. -/
def pdUser : ParsedData :=
  { classes := [("c1", mkClass "User"), ("c2", mkClass "Book")]
    associations := [("a1",
      { afrom := "c2", ato := "c1", type := .MANY_TO_ONE,
        injectedFieldInFrom := some "owner", injectedFieldInTo := none })]
    pfields := [], types := [], enums := [], validations := [] }

/-- `argsOf pdAuthorBook` with a NoSQL storage descriptor. -/
def argsNoSQL : Args :=
  { parsedData := some pdAuthorBook, databaseTypes := some { noSQL := true },
    listDTO := none, listPagination := none, listService := none,
    microserviceNames := none, searchEngines := none }

/-- A minimal entity record used by the concrete step-level models. -/
def mkEmptyEntity (chd tbl : String) : Entity :=
  { relationships := [], fields := [], changelogDate := chd, dto := none,
    pagination := none, service := none, microserviceName := none,
    searchEngine := none, javadoc := none, entityTableName := tbl }

/-- A freshly initialized entity map for the `Author`/`Book` models. -/
def entsAB : EntityMap :=
  [("c1", mkEmptyEntity "d1" "author"), ("c2", mkEmptyEntity "d2" "book")]

/-- The entity map produced by running the pipeline on `pdAuthorBook` with the
`Author` snapshot of `fsysAB` on disk. -/
def outAB7 : EntityMap :=
  [("c1",
    { relationships := [
        { relationshipId := 1, relationshipType := .ONE_TO_MANY,
          relationshipName := some "books", otherEntityName := some "book",
          otherEntityField := none, ownerSide := none,
          otherEntityRelationshipName := some "author" }]
      fields := [], changelogDate := "20150101000000", dto := none,
      pagination := none, service := none, microserviceName := none,
      searchEngine := none, javadoc := none, entityTableName := "author" }),
   ("c2",
    { relationships := [
        { relationshipId := 1, relationshipType := .MANY_TO_ONE,
          relationshipName := some "author", otherEntityName := some "author",
          otherEntityField := some "id", ownerSide := none,
          otherEntityRelationshipName := none }]
      fields := [], changelogDate := "20160101123011", dto := none,
      pagination := none, service := none, microserviceName := none,
      searchEngine := none, javadoc := none, entityTableName := "book" })]

/-- The entity map produced by running the pipeline on `pdUser`: the `User`
entity has been suppressed while `Book` keeps its relationship toward it. -/
def outUser : EntityMap :=
  [("c2",
    { relationships := [
        { relationshipId := 1, relationshipType := .MANY_TO_ONE,
          relationshipName := some "owner", otherEntityName := some "user",
          otherEntityField := some "id", ownerSide := none,
          otherEntityRelationshipName := none }]
      fields := [], changelogDate := "20160101123011", dto := none,
      pagination := none, service := none, microserviceName := none,
      searchEngine := none, javadoc := none, entityTableName := "book" })]

/-- The output of the from-side step on the `Author`/`Book` one-to-many model:
both records pushed, the association rewritten to `MANY_TO_ONE`. -/
def stepAB : EntityMap × ParsedData :=
  ([("c1", { mkEmptyEntity "d1" "author" with relationships := [
      { relationshipId := 1, relationshipType := .ONE_TO_MANY,
        relationshipName := some "books", otherEntityName := some "book",
        otherEntityField := none, ownerSide := none,
        otherEntityRelationshipName := some "author" }] }),
    ("c2", { mkEmptyEntity "d2" "book" with relationships := [
      { relationshipId := 1, relationshipType := .MANY_TO_ONE,
        relationshipName := some "author", otherEntityName := some "author",
        otherEntityField := some "id", ownerSide := none,
        otherEntityRelationshipName := none }] })],
   pdAB1)

/-- The output of the from-side step on `pdM2Onone`: a bare relationship record
is pushed on the source entity even though no injected field was declared. -/
def stepM2Onone : EntityMap × ParsedData :=
  ([("c1", { mkEmptyEntity "d1" "author" with relationships := [
      { relationshipId := 1, relationshipType := .MANY_TO_ONE,
        relationshipName := none, otherEntityName := none,
        otherEntityField := none, ownerSide := none,
        otherEntityRelationshipName := none }] }),
    ("c2", mkEmptyEntity "d2" "book")],
   pdM2Onone)

/-- The output of the from-side step on `pdO2Onone`: the one-to-one record whose
`otherEntityRelationshipName` defaults to the lower-cased *source* class name. -/
def stepO2Onone : EntityMap × ParsedData :=
  ([("c1", { mkEmptyEntity "d1" "author" with relationships := [
      { relationshipId := 1, relationshipType := .ONE_TO_ONE,
        relationshipName := some "book", otherEntityName := some "book",
        otherEntityField := some "id", ownerSide := some true,
        otherEntityRelationshipName := some "author" }] }),
    ("c2", mkEmptyEntity "d2" "book")],
   pdO2Onone)

theorem alookup_aupdate_self {α : Type} (k : String) (v : α) (l : List (String × α)) :
    alookup k (aupdate k v l) = some v := by
  induction l with
  | nil => simp [alookup, aupdate]
  | cons p rest ih =>
    obtain ⟨k', v'⟩ := p
    by_cases h : k' = k
    · simp [aupdate, alookup, h]
    · simp [aupdate, alookup, h, ih]

theorem alookup_aupdate_ne {α : Type} {k k2 : String} (h : k2 ≠ k) (v : α)
    (l : List (String × α)) : alookup k2 (aupdate k v l) = alookup k2 l := by
  have h2 : ¬ (k = k2) := fun hh => h hh.symm
  induction l with
  | nil => simp [alookup, aupdate, h2]
  | cons p rest ih =>
    obtain ⟨k', v'⟩ := p
    by_cases hk : k' = k
    · subst hk
      simp [aupdate, alookup, h2, ih]
    · simp only [aupdate, if_neg hk, alookup]
      by_cases hk2 : k' = k2 <;> simp [hk2, ih]

theorem aupdate_lookup_eq {α : Type} {k : String} {v : α} {l : List (String × α)}
    (h : alookup k l = some v) : aupdate k v l = l := by
  induction l with
  | nil => simp [alookup] at h
  | cons p rest ih =>
    obtain ⟨k', v'⟩ := p
    by_cases hk : k' = k
    · subst hk
      simp only [alookup, if_pos rfl, if_true, Option.some.injEq] at h
      simp [aupdate, h]
    · simp only [alookup, if_neg hk] at h
      simp [aupdate, hk, ih h]

theorem alookup_of_mem_nodup {α : Type} {l : List (String × α)} {k : String} {v : α}
    (hnd : (l.map (·.1)).Nodup) (hm : (k, v) ∈ l) : alookup k l = some v := by
  induction l with
  | nil => simp at hm
  | cons p rest ih =>
    obtain ⟨k', v'⟩ := p
    simp only [List.map_cons, List.nodup_cons] at hnd
    rcases List.mem_cons.mp hm with h | h
    · rw [Prod.mk.injEq] at h
      simp [alookup, h.1.symm, h.2]
    · have hker : k' ≠ k := by
        intro he
        exact hnd.1 (he ▸ List.mem_map.mpr ⟨(k, v), h, rfl⟩)
      simp [alookup, hker, ih hnd.2 h]

theorem mem_alookup {α : Type} {l : List (String × α)} {k : String} {v : α}
    (h : alookup k l = some v) : (k, v) ∈ l := by
  induction l with
  | nil => simp [alookup] at h
  | cons p rest ih =>
    obtain ⟨k', v'⟩ := p
    by_cases hk : k' = k
    · subst hk
      simp only [alookup, if_pos rfl, if_true, Option.some.injEq] at h
      exact List.mem_cons.mpr (Or.inl (by rw [h]))
    · simp only [alookup, if_neg hk] at h
      exact List.mem_cons_of_mem _ (ih h)

theorem alookup_isSome_iff {α : Type} {l : List (String × α)} {k : String} :
    (alookup k l).isSome = true ↔ k ∈ l.map (·.1) := by
  induction l with
  | nil => simp [alookup]
  | cons p rest ih =>
    obtain ⟨k', v'⟩ := p
    by_cases hk : k' = k
    · simp [alookup, hk]
    · have hk2 : ¬ (k = k') := fun hh => hk hh.symm
      simp [alookup, hk, hk2, ih]

theorem alookup_map_of_fst_id {α β : Type} (f : (String × α) → (String × β))
    (hf : ∀ p, (f p).1 = p.1) (k : String) (l : List (String × α)) :
    alookup k (l.map f) = (alookup k l).map (fun v => (f (k, v)).2) := by
  induction l with
  | nil => simp [alookup]
  | cons p rest ih =>
    obtain ⟨k', v'⟩ := p
    have h1 : f (k', v') = ((f (k', v')).1, (f (k', v')).2) := rfl
    by_cases hk : k' = k
    · subst hk
      rw [List.map_cons, h1, hf (k', v')]
      simp [alookup]
    · rw [List.map_cons, h1, hf (k', v')]
      simp [alookup, hk, ih]

theorem relLen_push {ents : EntityMap} {c : ClassId} {ent : Entity}
    (hc : alookup c ents = some ent) (r : RelationshipRecord) (k : ClassId) :
    relLen (pushRelationship ents c ent r) k = relLen ents k + (if k = c then 1 else 0) := by
  unfold pushRelationship relLen
  by_cases hkc : k = c
  · subst hkc
    rw [alookup_aupdate_self, hc]
    simp
  · rw [alookup_aupdate_ne hkc]
    simp [hkc]

theorem chDate_push {ents : EntityMap} {c : ClassId} {ent : Entity}
    (hc : alookup c ents = some ent) (r : RelationshipRecord) (k : ClassId) :
    chDate (pushRelationship ents c ent r) k = chDate ents k := by
  unfold pushRelationship chDate
  by_cases hkc : k = c
  · subst hkc
    rw [alookup_aupdate_self, hc]
    simp
  · rw [alookup_aupdate_ne hkc]

theorem alookup_push_ne {ents : EntityMap} {c : ClassId} {ent : Entity}
    (r : RelationshipRecord) {k : ClassId} (hkc : k ≠ c) :
    alookup k (pushRelationship ents c ent r) = alookup k ents := by
  unfold pushRelationship
  exact alookup_aupdate_ne hkc _ _

theorem alookup_push_self (ents : EntityMap) (c : ClassId) (ent : Entity)
    (r : RelationshipRecord) :
    alookup c (pushRelationship ents c ent r) =
      some { ent with relationships := ent.relationships ++ [r] } := by
  unfold pushRelationship
  exact alookup_aupdate_self ..

theorem relLen_eq_of_lookup {ents : EntityMap} {c : ClassId} {ent : Entity}
    (hc : alookup c ents = some ent) : relLen ents c = ent.relationships.length := by
  unfold relLen
  rw [hc]

theorem eta_assoc_injTo (a : Association) :
    { a with injectedFieldInTo := a.injectedFieldInTo } = a := rfl

theorem eta_pd_associations (pd : ParsedData) :
    { pd with associations := pd.associations } = pd := rfl

theorem setAssociation_lookup_eq {pd : ParsedData} {aid : AssocId} {a : Association}
    (ha : alookup aid pd.associations = some a) : pd.setAssociation aid a = pd := by
  unfold ParsedData.setAssociation
  rw [aupdate_lookup_eq ha]

theorem fromSideStep_count (U : StrUtils) (c : ClassId) (ents : EntityMap) (pd : ParsedData)
    (aid : AssocId) (a : Association) (out : EntityMap × ParsedData)
    (ha : alookup aid pd.associations = some a)
    (h : fromSideStep U c (ents, pd) aid = Except.ok out) :
    (∀ k, relLen out.1 k = relLen ents k + (if k = c then 1 else 0) +
        (if a.type = .ONE_TO_MANY ∧ truthy a.injectedFieldInTo = false ∧ k = a.ato then 1 else 0)) ∧
    (∀ k, chDate out.1 k = chDate ents k) ∧
    out.2 = (if a.type = .ONE_TO_MANY ∧ truthy a.injectedFieldInTo = false
        then pd.setAssociation aid { a with type := .MANY_TO_ONE } else pd) := by
  simp only [fromSideStep, ha] at h
  rcases hfm : alookup a.afrom pd.classes with _ | fromClass <;> rw [hfm] at h
  · rcases htm : alookup a.ato pd.classes with _ | toClass <;> rw [htm] at h <;> simp at h
  rcases htm : alookup a.ato pd.classes with _ | toClass <;> rw [htm] at h
  · simp at h
  dsimp only at h
  by_cases hcv : checkValidityOfAssociation fromClass.name toClass.name = true
  swap
  · rw [if_neg (by simpa using hcv)] at h
    simp at h
  rw [if_pos (by simpa using hcv)] at h
  rcases hentc : alookup c ents with _ | entC <;> rw [hentc] at h
  · simp at h
  dsimp only at h
  cases hat : a.type <;> rw [hat] at h <;> dsimp only at h
  · simp only [Except.ok.injEq] at h
    subst h
    refine ⟨fun k => ?_, fun k => chDate_push hentc _ k, ?_⟩
    · rw [relLen_push hentc]
      simp [hat]
    · simp [hat]
  · by_cases htr : truthy a.injectedFieldInTo = true
    · rw [if_pos (by simpa using htr)] at h
      simp only [Except.ok.injEq] at h
      subst h
      refine ⟨fun k => ?_, fun k => chDate_push hentc _ k, ?_⟩
      · rw [relLen_push hentc]
        simp [hat, htr]
      · simp [hat, htr]
    · rw [if_neg (by simpa using htr)] at h
      rcases hto : alookup a.ato ents with _ | entTo <;> rw [hto] at h
      · simp at h
      dsimp only at h
      have htrf : truthy a.injectedFieldInTo = false := by simpa using htr
      revert h
      generalize hpush : pushRelationship ents a.ato entTo _ = ents1
      intro h
      rcases hc2 : alookup c ents1 with _ | entC2 <;> rw [hc2] at h
      · simp at h
      dsimp only at h
      simp only [Except.ok.injEq] at h
      subst h
      refine ⟨fun k => ?_, fun k => ?_, ?_⟩
      · rw [relLen_push hc2, ← hpush, relLen_push hto]
        simp only [hat, htrf]
        by_cases hkc : k = c <;> by_cases hka : k = a.ato <;> simp [hkc, hka] <;> omega
      · rw [chDate_push hc2, ← hpush, chDate_push hto]
      · simp [hat, htrf]
  · by_cases hif : truthy a.injectedFieldInFrom = true
    · rw [if_pos (by simpa using hif)] at h
      simp only [Except.ok.injEq] at h
      subst h
      refine ⟨fun k => ?_, fun k => chDate_push hentc _ k, ?_⟩
      · rw [relLen_push hentc]
        simp [hat]
      · simp [hat]
    · rw [if_neg (by simpa using hif)] at h
      simp only [Except.ok.injEq] at h
      subst h
      refine ⟨fun k => ?_, fun k => chDate_push hentc _ k, ?_⟩
      · rw [relLen_push hentc]
        simp [hat]
      · simp [hat]
  · simp only [Except.ok.injEq] at h
    subst h
    refine ⟨fun k => ?_, fun k => chDate_push hentc _ k, ?_⟩
    · rw [relLen_push hentc]
      simp [hat]
    · simp [hat]

theorem toSideStep_count (U : StrUtils) (c : ClassId) (ents : EntityMap) (pd : ParsedData)
    (aid : AssocId) (a : Association) (out : EntityMap × ParsedData)
    (ha : alookup aid pd.associations = some a)
    (htr : truthy a.injectedFieldInTo = true)
    (h : toSideStep U c (ents, pd) aid = Except.ok out) :
    (∀ k, relLen out.1 k = relLen ents k + (if k = c then 1 else 0)) ∧
    (∀ k, chDate out.1 k = chDate ents k) ∧
    out.2 = pd := by
  simp only [toSideStep, ha] at h
  rcases hentc : alookup c ents with _ | entC <;> rw [hentc] at h
  · simp at h
  dsimp only at h
  cases hat : a.type <;> rw [hat] at h <;> dsimp only at h
  · rcases hfm : alookup a.afrom pd.classes with _ | fromClass <;> rw [hfm] at h
    · simp at h
    dsimp only at h
    simp only [Except.ok.injEq] at h
    subst h
    exact ⟨fun k => relLen_push hentc _ k, fun k => chDate_push hentc _ k, rfl⟩
  · rcases hfm : alookup a.afrom pd.classes with _ | fromClass <;> rw [hfm] at h
    · simp at h
    dsimp only at h
    simp only [Except.ok.injEq] at h
    subst h
    refine ⟨fun k => relLen_push hentc _ k, fun k => chDate_push hentc _ k, ?_⟩
    dsimp only
    rcases hinj : a.injectedFieldInTo with _ | s
    · rw [hinj] at htr
      simp [truthy] at htr
    · have hse : s.isEmpty = false := by
        rw [hinj] at htr
        simpa [truthy] using htr
      have horr : orElseStr (some s) (lowerFirst a.afrom) = s := by
        simp [orElseStr, hse]
      rw [horr, ← hinj, ← hat, eta_assoc_injTo]
      exact setAssociation_lookup_eq ha
  · by_cases htr2 : truthy a.injectedFieldInTo = true
    · rw [if_pos (by simpa using htr2)] at h
      rcases hfm : alookup a.afrom pd.classes with _ | fromClass <;> rw [hfm] at h
      · simp at h
      dsimp only at h
      simp only [Except.ok.injEq] at h
      subst h
      exact ⟨fun k => relLen_push hentc _ k, fun k => chDate_push hentc _ k, rfl⟩
    · exact absurd htr htr2
  · rcases hfm : alookup a.afrom pd.classes with _ | fromClass <;> rw [hfm] at h
    · simp at h
    dsimp only at h
    simp only [Except.ok.injEq] at h
    subst h
    exact ⟨fun k => relLen_push hentc _ k, fun k => chDate_push hentc _ k, rfl⟩

theorem resolveOne_fst (D : List AssocId) (p : AssocId × Association) :
    (resolveOne D p).1 = p.1 := by
  unfold resolveOne
  split <;> rfl

theorem resolveOne_afrom (D : List AssocId) (p : AssocId × Association) :
    (resolveOne D p).2.afrom = p.2.afrom := by
  unfold resolveOne
  split <;> rfl

theorem resolveOne_ato (D : List AssocId) (p : AssocId × Association) :
    (resolveOne D p).2.ato = p.2.ato := by
  unfold resolveOne
  split <;> rfl

theorem resolveOne_injFrom (D : List AssocId) (p : AssocId × Association) :
    (resolveOne D p).2.injectedFieldInFrom = p.2.injectedFieldInFrom := by
  unfold resolveOne
  split <;> rfl

theorem resolveOne_injTo (D : List AssocId) (p : AssocId × Association) :
    (resolveOne D p).2.injectedFieldInTo = p.2.injectedFieldInTo := by
  unfold resolveOne
  split <;> rfl

theorem resolveOne_not_mem {D : List AssocId} {p : AssocId × Association} (h : p.1 ∉ D) :
    resolveOne D p = p := by
  unfold resolveOne
  rw [if_neg]
  intro hc
  exact h hc.1

theorem resolveOne_no_synth {D : List AssocId} {p : AssocId × Association}
    (h : ¬(p.2.type = .ONE_TO_MANY ∧ truthy p.2.injectedFieldInTo = false)) :
    resolveOne D p = p := by
  unfold resolveOne
  rw [if_neg]
  intro hc
  exact h ⟨hc.2.1, hc.2.2⟩

theorem resolveOne_snoc_ne {D : List AssocId} {aid : AssocId} {p : AssocId × Association}
    (h : p.1 ≠ aid) : resolveOne (D ++ [aid]) p = resolveOne D p := by
  unfold resolveOne
  have : (p.1 ∈ D ++ [aid]) ↔ p.1 ∈ D := by
    simp [List.mem_append, h]
  rw [if_congr (and_congr_left fun _ => this) rfl rfl]

theorem alookup_map_resolveOne (D : List AssocId) (k : AssocId)
    (A : List (AssocId × Association)) :
    alookup k (A.map (resolveOne D)) =
      (alookup k A).map (fun a => (resolveOne D (k, a)).2) := by
  exact alookup_map_of_fst_id (resolveOne D) (resolveOne_fst D) k A

theorem map_resolveOne_snoc_of_not_synth {A : List (AssocId × Association)}
    {D : List AssocId} {aid : AssocId}
    (hns : ∀ p ∈ A, p.1 = aid → ¬(p.2.type = .ONE_TO_MANY ∧ truthy p.2.injectedFieldInTo = false)) :
    A.map (resolveOne (D ++ [aid])) = A.map (resolveOne D) := by
  apply List.map_congr_left
  intro p hp
  by_cases hk : p.1 = aid
  · rw [resolveOne_no_synth (hns p hp hk), resolveOne_no_synth (hns p hp hk)]
  · exact resolveOne_snoc_ne hk

theorem aupdate_map_resolveOne_snoc {A : List (AssocId × Association)} {D : List AssocId}
    {aid : AssocId} {a : Association}
    (hnd : (A.map (·.1)).Nodup)
    (ha : alookup aid A = some a)
    (hsyn : a.type = .ONE_TO_MANY ∧ truthy a.injectedFieldInTo = false)
    (hnotin : aid ∉ D) :
    aupdate aid { a with type := .MANY_TO_ONE } (A.map (resolveOne D)) =
      A.map (resolveOne (D ++ [aid])) := by
  induction A with
  | nil => simp [alookup] at ha
  | cons p rest ih =>
    obtain ⟨k', v'⟩ := p
    simp only [List.map_cons, List.nodup_cons] at hnd
    by_cases hk : k' = aid
    · subst hk
      simp only [alookup, if_pos rfl, if_true, Option.some.injEq] at ha
      subst ha
      have hni : (k', v').1 ∉ D := hnotin
      have hvac : ∀ q ∈ rest, q.1 = k' →
          ¬(q.2.type = .ONE_TO_MANY ∧ truthy q.2.injectedFieldInTo = false) := by
        intro q hq hq1
        exact absurd (hq1 ▸ List.mem_map.mpr ⟨q, hq, rfl⟩) hnd.1
      have hhead : resolveOne (D ++ [k']) (k', v') = (k', { v' with type := .MANY_TO_ONE }) := by
        unfold resolveOne
        rw [if_pos ⟨by simp, hsyn.1, hsyn.2⟩]
      rw [List.map_cons, List.map_cons, resolveOne_not_mem hni, hhead,
        ← map_resolveOne_snoc_of_not_synth (A := rest) (D := D) hvac]
      simp [aupdate]
    · simp only [alookup, if_neg hk] at ha
      have hps : resolveOne D (k', v') = ((resolveOne D (k', v')).1, (resolveOne D (k', v')).2) := rfl
      have hfst : (resolveOne D (k', v')).1 = k' := resolveOne_fst ..
      rw [List.map_cons, List.map_cons, hps, hfst]
      rw [resolveOne_snoc_ne (p := (k', v')) hk, hps, hfst]
      simp only [aupdate, if_neg hk]
      rw [ih hnd.2 ha]

theorem filter_map_map_eq {α β : Type} (f : α → α) (q : α → Bool) (g : α → β)
    (hq : ∀ p, q (f p) = q p) (hg : ∀ p, g (f p) = g p) (A : List α) :
    ((A.map f).filter q).map g = (A.filter q).map g := by
  induction A with
  | nil => rfl
  | cons p rest ih =>
    simp only [List.map_cons, List.filter_cons, hq]
    by_cases h : q p = true <;> simp [h, hg, ih]

theorem getRelatedAssociations_map_resolveOne (c : ClassId) (D : List AssocId)
    (A : List (AssocId × Association)) :
    getRelatedAssociations c (A.map (resolveOne D)) = getRelatedAssociations c A := by
  unfold getRelatedAssociations
  have h1 := filter_map_map_eq (resolveOne D) (fun p => p.2.afrom == c) (·.1)
    (fun p => by simp [resolveOne_afrom]) (fun p => resolveOne_fst ..) A
  have h2 := filter_map_map_eq (resolveOne D)
    (fun p => p.2.ato == c && truthy p.2.injectedFieldInTo) (·.1)
    (fun p => by simp [resolveOne_ato, resolveOne_injTo]) (fun p => resolveOne_fst ..) A
  rw [h1, h2]

theorem resolvedPd_nil (pd : ParsedData) : resolvedPd pd [] = pd := by
  unfold resolvedPd
  have h : ∀ (L : List (AssocId × Association)), L.map (resolveOne []) = L := by
    intro L
    induction L with
    | nil => rfl
    | cons p r ih => rw [List.map_cons, resolveOne_not_mem (by simp), ih]
  rw [h]

theorem resolvedPd_classes (pd : ParsedData) (D : List AssocId) :
    (resolvedPd pd D).classes = pd.classes := rfl

theorem setAssociation_resolvedPd (pd : ParsedData) (D : List AssocId) (aid : AssocId)
    (a : Association) :
    (resolvedPd pd D).setAssociation aid a =
      { pd with associations := aupdate aid a (pd.associations.map (resolveOne D)) } := rfl

theorem except_bind_ok {α β : Type} (x : α) (f : α → Except Err β) :
    (Except.ok x >>= f : Except Err β) = f x := rfl

theorem except_bind_error {α β : Type} (e : Err) (f : α → Except Err β) :
    ((Except.error e : Except Err α) >>= f : Except Err β) = Except.error e := rfl

theorem fromFold_count (U : StrUtils) (c : ClassId) (pd0 : ParsedData)
    (hndA : (assocKeys pd0).Nodup) :
    ∀ (E : List (AssocId × Association)) (D : List AssocId) (ents : EntityMap)
      (out : EntityMap × ParsedData),
    (∀ p ∈ E, alookup p.1 pd0.associations = some p.2 ∧ p.2.afrom = c) →
    ((E.map (·.1)).Nodup) →
    (∀ p ∈ E, p.1 ∉ D) →
    ((E.map (·.1)).foldlM (fromSideStep U c) (ents, resolvedPd pd0 D) = Except.ok out) →
    (∀ k, relLen out.1 k = relLen ents k + (E.map (fun p => fromContribution p.2 k)).sum) ∧
    (∀ k, chDate out.1 k = chDate ents k) ∧
    out.2 = resolvedPd pd0 (D ++ E.map (·.1)) := by
  intro E
  induction E with
  | nil =>
    intro D ents out hE hEnd hDdisj h
    simp only [List.map_nil, List.foldlM_nil] at h
    have h2 : Except.ok (ents, resolvedPd pd0 D) = Except.ok out := h
    simp only [Except.ok.injEq] at h2
    subst h2
    simp
  | cons p E ih =>
    intro D ents out hE hEnd hDdisj h
    simp only [List.map_cons, List.foldlM_cons] at h
    rcases hstep : fromSideStep U c (ents, resolvedPd pd0 D) p.1 with e | st1 <;>
        rw [hstep] at h
    · rw [except_bind_error] at h
      simp at h
    have ha0 : alookup p.1 pd0.associations = some p.2 := (hE p (by simp)).1
    have hafrom : p.2.afrom = c := (hE p (by simp)).2
    have hres : resolveOne D (p.1, p.2) = (p.1, p.2) :=
      resolveOne_not_mem (hDdisj p (by simp))
    have ha1 : alookup p.1 (resolvedPd pd0 D).associations = some p.2 := by
      show alookup p.1 (pd0.associations.map (resolveOne D)) = some p.2
      rw [alookup_map_resolveOne, ha0]
      simp [hres]
    obtain ⟨hrel1, hch1, hpd1⟩ :=
      fromSideStep_count U c ents (resolvedPd pd0 D) p.1 p.2 st1 ha1 hstep
    have hpd1' : st1.2 = resolvedPd pd0 (D ++ [p.1]) := by
      by_cases hsyn : p.2.type = .ONE_TO_MANY ∧ truthy p.2.injectedFieldInTo = false
      · rw [hpd1, if_pos hsyn, setAssociation_resolvedPd]
        unfold resolvedPd
        rw [aupdate_map_resolveOne_snoc hndA ha0 hsyn (hDdisj p (by simp))]
      · rw [hpd1, if_neg hsyn]
        unfold resolvedPd
        rw [map_resolveOne_snoc_of_not_synth]
        intro q hq hq1
        have hthis : alookup q.1 pd0.associations = some q.2 := alookup_of_mem_nodup hndA hq
        rw [hq1, ha0] at hthis
        simp only [Option.some.injEq] at hthis
        rw [← hthis]
        exact hsyn
    rw [except_bind_ok] at h
    have hsimp : st1 = (st1.1, st1.2) := rfl
    rw [hsimp, hpd1'] at h
    obtain ⟨hrel2, hch2, hpd2⟩ := ih (D ++ [p.1]) st1.1 out
      (fun q hq => hE q (by simp [hq]))
      hEnd.of_cons
      (fun q hq => by
        simp only [List.mem_append, List.mem_singleton]
        rintro (hin | hin)
        · exact hDdisj q (by simp [hq]) hin
        · rw [List.map_cons, List.nodup_cons] at hEnd
          exact hEnd.1 (hin ▸ List.mem_map.mpr ⟨q, hq, rfl⟩)) h
    refine ⟨fun k => ?_, fun k => ?_, ?_⟩
    · rw [hrel2 k, hrel1 k]
      simp only [List.map_cons, List.sum_cons, fromContribution, hafrom]
      omega
    · rw [hch2 k, hch1 k]
    · rw [hpd2, List.append_assoc]
      rfl

theorem toFold_count (U : StrUtils) (c : ClassId) (pd : ParsedData) :
    ∀ (E : List (AssocId × Association)) (ents : EntityMap) (out : EntityMap × ParsedData),
    (∀ p ∈ E, alookup p.1 pd.associations = some p.2 ∧ truthy p.2.injectedFieldInTo = true) →
    ((E.map (·.1)).foldlM (toSideStep U c) (ents, pd) = Except.ok out) →
    (∀ k, relLen out.1 k = relLen ents k + (if k = c then E.length else 0)) ∧
    (∀ k, chDate out.1 k = chDate ents k) ∧
    out.2 = pd := by
  intro E
  induction E with
  | nil =>
    intro ents out hE h
    simp only [List.map_nil, List.foldlM_nil] at h
    have h2 : Except.ok (ents, pd) = Except.ok out := h
    simp only [Except.ok.injEq] at h2
    subst h2
    simp
  | cons p E ih =>
    intro ents out hE h
    simp only [List.map_cons, List.foldlM_cons] at h
    rcases hstep : toSideStep U c (ents, pd) p.1 with e | st1 <;> rw [hstep] at h
    · rw [except_bind_error] at h
      simp at h
    rw [except_bind_ok] at h
    obtain ⟨hrel1, hch1, hpd1⟩ := toSideStep_count U c ents pd p.1 p.2 st1
      (hE p (by simp)).1 (hE p (by simp)).2 hstep
    have hsimp : st1 = (st1.1, st1.2) := rfl
    rw [hsimp, hpd1] at h
    obtain ⟨hrel2, hch2, hpd2⟩ := ih st1.1 out (fun q hq => hE q (by simp [hq])) h
    refine ⟨fun k => ?_, fun k => ?_, hpd2⟩
    · rw [hrel2 k, hrel1 k]
      by_cases hkc : k = c
      · simp only [hkc, if_pos rfl, if_true, List.length_cons]
        omega
      · simp [hkc]
    · rw [hch2 k, hch1 k]

theorem sum_map_ite_const {α : Type} (L : List α) (cond : Prop) [Decidable cond] :
    (L.map (fun _ => if cond then 1 else 0)).sum = if cond then L.length else 0 := by
  induction L with
  | nil => simp
  | cons x L ih =>
    by_cases hc : cond
    · simp [hc] at ih ⊢
      omega
    · simp [hc] at ih ⊢

theorem filter_keys_nodup {α : Type} {A : List (String × α)} (q : (String × α) → Bool)
    (hnd : (A.map (·.1)).Nodup) : ((A.filter q).map (·.1)).Nodup :=
  List.Nodup.sublist (List.Sublist.map _ (List.filter_sublist A)) hnd

theorem resolvedPd_associations (pd : ParsedData) (D : List AssocId) :
    (resolvedPd pd D).associations = pd.associations.map (resolveOne D) := rfl

theorem setRelationshipOfEntity_count (U : StrUtils) (pd0 : ParsedData) (c : ClassId)
    (D : List AssocId) (done : List ClassId) (ents : EntityMap) (out : EntityMap × ParsedData)
    (hndA : (assocKeys pd0).Nodup)
    (hD : ∀ p ∈ pd0.associations, (p.1 ∈ D ↔ p.2.afrom ∈ done))
    (hcd : c ∉ done)
    (h : setRelationshipOfEntity U (resolvedPd pd0 D) ents c = Except.ok out) :
    (∀ k, relLen out.1 k = relLen ents k + classContribution pd0 c k) ∧
    (∀ k, chDate out.1 k = chDate ents k) ∧
    out.2 = resolvedPd pd0
      (D ++ (pd0.associations.filter (fun p => p.2.afrom == c)).map (·.1)) ∧
    (∀ p ∈ pd0.associations,
      (p.1 ∈ D ++ (pd0.associations.filter (fun p => p.2.afrom == c)).map (·.1) ↔
        p.2.afrom ∈ done ++ [c])) := by
  unfold setRelationshipOfEntity at h
  rw [show (resolvedPd pd0 D).associations = pd0.associations.map (resolveOne D) from rfl,
    getRelatedAssociations_map_resolveOne] at h
  dsimp only at h
  rcases hff : (getRelatedAssociations c pd0.associations).rfrom.foldlM
      (fromSideStep U c) (ents, resolvedPd pd0 D) with e | st1 <;> rw [hff] at h
  · simp at h
  have hfromlist : (getRelatedAssociations c pd0.associations).rfrom =
      (pd0.associations.filter (fun p => p.2.afrom == c)).map (·.1) := rfl
  rw [hfromlist] at hff
  obtain ⟨hrel1, hch1, hpd1⟩ := fromFold_count U c pd0 hndA
    (pd0.associations.filter (fun p => p.2.afrom == c)) D ents st1
    (fun p hp => by
      rw [List.mem_filter] at hp
      exact ⟨alookup_of_mem_nodup hndA hp.1, by simpa using hp.2⟩)
    (filter_keys_nodup _ hndA)
    (fun p hp => by
      rw [List.mem_filter] at hp
      intro hin
      have := (hD p hp.1).mp hin
      rw [show p.2.afrom = c from by simpa using hp.2] at this
      exact hcd this)
    hff
  have htolist : (getRelatedAssociations c pd0.associations).rto =
      ((pd0.associations.filter
        (fun p => p.2.ato == c && truthy p.2.injectedFieldInTo)).map
          (resolveOne (D ++ (pd0.associations.filter
            (fun p => p.2.afrom == c)).map (·.1)))).map (·.1) := by
    show (pd0.associations.filter
        (fun p => p.2.ato == c && truthy p.2.injectedFieldInTo)).map (·.1) = _
    rw [List.map_map]
    apply List.map_congr_left
    intro p _
    exact (resolveOne_fst ..).symm
  rw [htolist] at h
  have hst1 : st1 = (st1.1, st1.2) := rfl
  rw [hst1, hpd1] at h
  obtain ⟨hrel2, hch2, hpd2⟩ := toFold_count U c
    (resolvedPd pd0 (D ++ (pd0.associations.filter (fun p => p.2.afrom == c)).map (·.1)))
    ((pd0.associations.filter
      (fun p => p.2.ato == c && truthy p.2.injectedFieldInTo)).map
        (resolveOne (D ++ (pd0.associations.filter (fun p => p.2.afrom == c)).map (·.1))))
    st1.1 out
    (fun p hp => by
      rw [List.mem_map] at hp
      obtain ⟨q, hq, hqp⟩ := hp
      rw [List.mem_filter] at hq
      constructor
      · rw [← hqp, resolveOne_fst, resolvedPd_associations,
          alookup_map_resolveOne, alookup_of_mem_nodup hndA hq.1]
        rfl
      · rw [← hqp, resolveOne_injTo]
        have := hq.2
        simp only [Bool.and_eq_true] at this
        exact this.2)
    h
  refine ⟨fun k => ?_, fun k => ?_, hpd2, ?_⟩
  · rw [hrel2 k, hrel1 k]
    unfold classContribution
    rw [sum_map_ite_const, List.length_map]
    omega
  · rw [hch2 k, hch1 k]
  · intro p hp
    rw [List.mem_append, List.mem_append, List.mem_singleton, hD p hp]
    constructor
    · rintro (hin | hin)
      · exact Or.inl hin
      · rw [List.mem_map] at hin
        obtain ⟨q, hq, hq1⟩ := hin
        rw [List.mem_filter] at hq
        have h1 : alookup q.1 pd0.associations = some q.2 := alookup_of_mem_nodup hndA hq.1
        have h2 : alookup p.1 pd0.associations = some p.2 := alookup_of_mem_nodup hndA hp
        rw [hq1] at h1
        rw [h2, Option.some.injEq] at h1
        right
        rw [h1]
        simpa using hq.2
    · rintro (hin | hin)
      · exact Or.inl hin
      · right
        rw [List.mem_map]
        refine ⟨p, ?_, rfl⟩
        rw [List.mem_filter]
        exact ⟨hp, by simpa using hin⟩

theorem setFieldStep_frame (U : StrUtils) (pd : ParsedData) (c : ClassId)
    (ents : EntityMap) (f : FieldId) (ents1 : EntityMap)
    (h : setFieldStep U pd c ents f = Except.ok ents1) :
    (∀ k, relLen ents1 k = relLen ents k) ∧ (∀ k, chDate ents1 k = chDate ents k) := by
  unfold setFieldStep at h
  rcases hc : alookup c ents with _ | entity <;> rw [hc] at h
  · simp at h
  rcases hgf : pd.getField f with _ | fm <;> rw [hgf] at h
  · simp at h
  dsimp only at h
  split at h
  · simp at h
  next fd heq =>
  simp only [Except.ok.injEq] at h
  subst h
  constructor <;> intro k <;> by_cases hkc : k = c
  · subst hkc
    unfold relLen
    rw [alookup_aupdate_self, hc]
  · unfold relLen
    rw [alookup_aupdate_ne hkc]
  · subst hkc
    unfold chDate
    rw [alookup_aupdate_self, hc]
    simp
  · unfold chDate
    rw [alookup_aupdate_ne hkc]

theorem setFieldsOfEntity_frame (U : StrUtils) (pd : ParsedData) (c : ClassId) :
    ∀ (fs : List FieldId) (ents ents' : EntityMap),
    (fs.foldlM (setFieldStep U pd c) ents = Except.ok ents') →
    (∀ k, relLen ents' k = relLen ents k) ∧ (∀ k, chDate ents' k = chDate ents k) := by
  intro fs
  induction fs with
  | nil =>
    intro ents ents' h
    simp only [List.foldlM_nil] at h
    have h2 : Except.ok ents = Except.ok ents' := h
    simp only [Except.ok.injEq] at h2
    subst h2
    exact ⟨fun k => rfl, fun k => rfl⟩
  | cons f fs ih =>
    intro ents ents' h
    rw [List.foldlM_cons] at h
    rcases hstep : setFieldStep U pd c ents f with e | ents1 <;> rw [hstep] at h
    · rw [except_bind_error] at h
      simp at h
    rw [except_bind_ok] at h
    obtain ⟨h1, h2⟩ := setFieldStep_frame U pd c ents f ents1 hstep
    obtain ⟨h3, h4⟩ := ih ents1 ents' h
    exact ⟨fun k => (h3 k).trans (h1 k), fun k => (h4 k).trans (h2 k)⟩

theorem setFieldsOfEntity_ok_frame (U : StrUtils) (pd : ParsedData) (c : ClassId)
    (ents ents' : EntityMap) (h : setFieldsOfEntity U pd ents c = Except.ok ents') :
    (∀ k, relLen ents' k = relLen ents k) ∧ (∀ k, chDate ents' k = chDate ents k) := by
  unfold setFieldsOfEntity at h
  rcases hcl : alookup c pd.classes with _ | cl <;> rw [hcl] at h
  · simp at h
  exact setFieldsOfEntity_frame U pd c cl.fields ents ents' h

theorem resolveStep_count (U : StrUtils) (pd0 : ParsedData) (c : ClassId)
    (D : List AssocId) (done : List ClassId) (supp0 : List ClassId) (ents : EntityMap)
    (out : List ClassId × EntityMap × ParsedData)
    (hndA : (assocKeys pd0).Nodup)
    (hD : ∀ p ∈ pd0.associations, (p.1 ∈ D ↔ p.2.afrom ∈ done))
    (hcd : c ∉ done)
    (h : resolveStep U (supp0, ents, resolvedPd pd0 D) c = Except.ok out) :
    (∀ k, relLen out.2.1 k = relLen ents k + classContribution pd0 c k) ∧
    (∀ k, chDate out.2.1 k = chDate ents k) ∧
    out.1 = supp0 ++ (if isUserClass pd0 c then [c] else []) ∧
    out.2.2 = resolvedPd pd0
      (D ++ (pd0.associations.filter (fun p => p.2.afrom == c)).map (·.1)) ∧
    (∀ p ∈ pd0.associations,
      (p.1 ∈ D ++ (pd0.associations.filter (fun p => p.2.afrom == c)).map (·.1) ↔
        p.2.afrom ∈ done ++ [c])) := by
  simp only [resolveStep] at h
  rw [show alookup c (resolvedPd pd0 D).classes = alookup c pd0.classes from rfl] at h
  rcases hcl : alookup c pd0.classes with _ | cl <;> rw [hcl] at h
  · simp at h
  dsimp only at h
  rcases hsf : setFieldsOfEntity U (resolvedPd pd0 D) ents c with e | ents1 <;> rw [hsf] at h
  · simp at h
  dsimp only at h
  rcases hsr : setRelationshipOfEntity U (resolvedPd pd0 D) ents1 c with e | stp <;>
      rw [hsr] at h
  · simp at h
  simp only [Except.ok.injEq] at h
  subst h
  obtain ⟨hf1, hf2⟩ := setFieldsOfEntity_ok_frame U (resolvedPd pd0 D) c ents ents1 hsf
  obtain ⟨hr1, hr2, hr3, hr4⟩ :=
    setRelationshipOfEntity_count U pd0 c D done ents1 stp hndA hD hcd hsr
  refine ⟨fun k => ?_, fun k => ?_, ?_, hr3, hr4⟩
  · rw [hr1 k, hf1 k]
  · rw [hr2 k, hf2 k]
  · have hiuc : isUserClass pd0 c = (toLowerStr cl.name == USER) := by
      unfold isUserClass
      rw [hcl]
    rw [hiuc]
    by_cases hu : toLowerStr cl.name = USER
    · rw [if_pos hu, if_pos (by simpa using hu)]
    · rw [if_neg hu, if_neg (by simpa using hu), List.append_nil]

theorem resolveAll_fold_count (U : StrUtils) (pd0 : ParsedData)
    (hndA : (assocKeys pd0).Nodup) (hndC : (classKeys pd0).Nodup) :
    ∀ (cs done : List ClassId) (D : List AssocId) (supp0 : List ClassId)
      (ents : EntityMap) (out : List ClassId × EntityMap × ParsedData),
    (classKeys pd0 = done ++ cs) →
    (∀ p ∈ pd0.associations, (p.1 ∈ D ↔ p.2.afrom ∈ done)) →
    (cs.foldlM (resolveStep U) (supp0, ents, resolvedPd pd0 D) = Except.ok out) →
    (∀ k, relLen out.2.1 k =
        relLen ents k + (cs.map (fun c => classContribution pd0 c k)).sum) ∧
    (∀ k, chDate out.2.1 k = chDate ents k) ∧
    out.1 = supp0 ++ cs.filter (fun c => isUserClass pd0 c) ∧
    (∃ D2, out.2.2 = resolvedPd pd0 D2 ∧
      ∀ p ∈ pd0.associations, (p.1 ∈ D2 ↔ p.2.afrom ∈ done ++ cs)) := by
  intro cs
  induction cs with
  | nil =>
    intro done D supp0 ents out hsplit hD h
    simp only [List.foldlM_nil] at h
    have h2 : Except.ok (supp0, ents, resolvedPd pd0 D) = Except.ok out := h
    simp only [Except.ok.injEq] at h2
    subst h2
    refine ⟨fun k => by simp, fun k => rfl, by simp, D, rfl, ?_⟩
    intro p hp
    rw [List.append_nil]
    exact hD p hp
  | cons c cs ih =>
    intro done D supp0 ents out hsplit hD h
    have hcd : c ∉ done := by
      rw [hsplit, List.nodup_append] at hndC
      intro hin
      exact hndC.2.2 hin (by simp)
    rw [List.foldlM_cons] at h
    rcases hstep : resolveStep U (supp0, ents, resolvedPd pd0 D) c with e | st1 <;>
        rw [hstep] at h
    · rw [except_bind_error] at h
      simp at h
    rw [except_bind_ok] at h
    obtain ⟨hs1, hs2, hs3, hs4, hs5⟩ :=
      resolveStep_count U pd0 c D done supp0 ents st1 hndA hD hcd hstep
    have hst1 : st1 = (st1.1, st1.2.1, st1.2.2) := rfl
    rw [hst1, hs4] at h
    obtain ⟨hr1, hr2, hr3, D2, hr4, hr5⟩ := ih (done ++ [c])
      (D ++ (pd0.associations.filter (fun p => p.2.afrom == c)).map (·.1))
      st1.1 st1.2.1 out
      (by rw [hsplit, List.append_assoc]; rfl)
      hs5 h
    refine ⟨fun k => ?_, fun k => ?_, ?_, D2, hr4, ?_⟩
    · rw [hr1 k, hs1 k, List.map_cons, List.sum_cons]
      omega
    · rw [hr2 k, hs2 k]
    · rw [hr3, hs3, List.filter_cons, List.append_assoc]
      by_cases hu : isUserClass pd0 c = true
    <;> simp [hu]
    · intro p hp
      rw [hr5 p hp, List.append_assoc]
      rfl

theorem sum_map_zero {α : Type} (A : List α) : (A.map (fun _ => (0 : Nat))).sum = 0 := by
  induction A with
  | nil => rfl
  | cons p A ih => simp [ih]

theorem sum_filter_eq {α : Type} (A : List α) (q : α → Bool) (f : α → Nat) :
    ((A.filter q).map f).sum = (A.map (fun p => if q p = true then f p else 0)).sum := by
  induction A with
  | nil => rfl
  | cons p A ih => by_cases h : q p = true <;> simp [h, ih]

theorem sum_swap {α β : Type} (C : List α) (A : List β) (g : α → β → Nat) :
    (C.map (fun c => (A.map (g c)).sum)).sum =
      (A.map (fun p => (C.map (fun c => g c p)).sum)).sum := by
  induction C with
  | nil => simp [sum_map_zero]
  | cons c C ih =>
    simp only [List.map_cons, List.sum_cons, ih]
    rw [← List.sum_map_add]

theorem sum_map_indicator {C : List ClassId} (hnd : C.Nodup) (x : ClassId)
    (f : ClassId → Nat) :
    (C.map (fun c => if x = c then f c else 0)).sum = if x ∈ C then f x else 0 := by
  induction C with
  | nil => simp
  | cons c C ih =>
    rw [List.nodup_cons] at hnd
    by_cases hx : x = c
    · subst hx
      have hnotin : (C.map (fun c => if x = c then f c else 0)).sum = 0 := by
        have : ∀ c ∈ C, (if x = c then f c else 0) = 0 := by
          intro c hc
          rw [if_neg]
          intro he
          exact hnd.1 (he ▸ hc)
        calc (C.map (fun c => if x = c then f c else 0)).sum
            = (C.map (fun _ => (0 : Nat))).sum := by
              rw [List.map_congr_left this]
          _ = 0 := sum_map_zero C
      simp [hnotin]
    · simp only [List.map_cons, List.sum_cons, if_neg hx, ih hnd.2, Nat.zero_add]
      have hmc : (x ∈ c :: C) ↔ x ∈ C := by
        simp [hx]
      rw [if_congr hmc rfl rfl]

theorem sum_classContribution (pd : ParsedData) (k : ClassId)
    (hndC : (classKeys pd).Nodup)
    (hwf : ∀ p ∈ pd.associations, p.2.afrom ∈ classKeys pd ∧ p.2.ato ∈ classKeys pd) :
    ((classKeys pd).map (fun c => classContribution pd c k)).sum =
      (pd.associations.map (fun p => attributedCount p.2 k)).sum := by
  have hcc : ∀ c, classContribution pd c k =
      (pd.associations.map (fun p =>
        (if p.2.afrom = c then fromContribution p.2 k else 0) +
        (if p.2.ato = c ∧ truthy p.2.injectedFieldInTo = true then
          (if k = c then 1 else 0) else 0))).sum := by
    intro c
    unfold classContribution
    rw [sum_filter_eq, sum_filter_eq, ← List.sum_map_add]
    apply congrArg
    apply List.map_congr_left
    intro p _
    have h1 : ((p.2.afrom == c) = true) = (p.2.afrom = c) := by
      simp
    have h2 : ((p.2.ato == c && truthy p.2.injectedFieldInTo) = true) =
        (p.2.ato = c ∧ truthy p.2.injectedFieldInTo = true) := by
      simp
    rw [if_congr (Eq.to_iff h1) rfl rfl, if_congr (Eq.to_iff h2) rfl rfl]
  calc ((classKeys pd).map (fun c => classContribution pd c k)).sum
      = ((classKeys pd).map (fun c => (pd.associations.map (fun p =>
          (if p.2.afrom = c then fromContribution p.2 k else 0) +
          (if p.2.ato = c ∧ truthy p.2.injectedFieldInTo = true then
            (if k = c then 1 else 0) else 0))).sum)).sum := by
        rw [List.map_congr_left (fun c _ => hcc c)]
    _ = (pd.associations.map (fun p => ((classKeys pd).map (fun c =>
          (if p.2.afrom = c then fromContribution p.2 k else 0) +
          (if p.2.ato = c ∧ truthy p.2.injectedFieldInTo = true then
            (if k = c then 1 else 0) else 0))).sum)).sum := sum_swap ..
    _ = (pd.associations.map (fun p => attributedCount p.2 k)).sum := by
        apply congrArg
        apply List.map_congr_left
        intro p hp
        rw [List.sum_map_add]
        rw [sum_map_indicator hndC p.2.afrom (fun _ => fromContribution p.2 k)]
        rw [if_pos (hwf p hp).1]
        have h3 : ((classKeys pd).map (fun c =>
            if p.2.ato = c ∧ truthy p.2.injectedFieldInTo = true then
              (if k = c then 1 else 0) else 0)).sum = toContribution p.2 k := by
          by_cases ht : truthy p.2.injectedFieldInTo = true
          · have hcong : ∀ c ∈ classKeys pd,
                (if p.2.ato = c ∧ truthy p.2.injectedFieldInTo = true then
                  (if k = c then 1 else 0) else 0) =
                (if p.2.ato = c then (if k = c then 1 else 0) else 0) := by
              intro c _
              by_cases hac : p.2.ato = c
              · rw [if_pos ⟨hac, ht⟩, if_pos hac]
              · rw [if_neg (fun hand => hac hand.1), if_neg hac]
            rw [List.map_congr_left hcong,
              sum_map_indicator hndC p.2.ato (fun c => if k = c then 1 else 0),
              if_pos (hwf p hp).2]
            unfold toContribution
            by_cases hk : k = p.2.ato
            · rw [if_pos hk, if_pos ⟨ht, hk⟩]
            · rw [if_neg hk, if_neg (fun hand => hk hand.2)]
          · have hcong : ∀ c ∈ classKeys pd,
                (if p.2.ato = c ∧ truthy p.2.injectedFieldInTo = true then
                  (if k = c then 1 else 0) else 0) = 0 := by
              intro c _
              rw [if_neg (fun hand => ht hand.2)]
            rw [List.map_congr_left hcong, sum_map_zero]
            unfold toContribution
            rw [if_neg (fun hand => ht hand.1)]
        rw [h3]
        rfl

theorem setOptions_relationships (m : MergedArgs) (e : Entity) (n : String) :
    (setOptions m e n).relationships = e.relationships := by
  unfold setOptions
  dsimp only
  split <;> split <;> split <;> split <;> split <;> rfl

theorem setOptions_changelogDate (m : MergedArgs) (e : Entity) (n : String) :
    (setOptions m e n).changelogDate = e.changelogDate := by
  unfold setOptions
  dsimp only
  split <;> split <;> split <;> split <;> split <;> rfl

theorem relLen_of_all_empty {ents : EntityMap}
    (h : ∀ q ∈ ents, q.2.relationships = []) (k : ClassId) : relLen ents k = 0 := by
  unfold relLen
  rcases hk : alookup k ents with _ | e
  · rfl
  · have he : e.relationships = [] := h (k, e) (mem_alookup hk)
    simp [he]

theorem init_relLen_zero (U : StrUtils) (m : MergedArgs)
    (onDisk : List (ClassId × OnDiskEntity)) (now : UTCTime) (pd : ParsedData) (k : ClassId) :
    relLen (initializeEntities U m onDisk now pd) k = 0 := by
  apply relLen_of_all_empty
  intro q hq
  unfold initializeEntities at hq
  rw [List.mem_map] at hq
  obtain ⟨p, _, hp⟩ := hq
  rw [← hp]
  exact setOptions_relationships ..

theorem alookup_enumFrom_map {β : Type} (F : Nat → ClassId → ClassModel → String × β)
    (hF : ∀ i c cl, (F i c cl).1 = c) :
    ∀ (L : List (ClassId × ClassModel)) (n : Nat) {c : ClassId} {cl : ClassModel},
    ((L.map (·.1)).Nodup) → (c, cl) ∈ L →
    ∃ i, alookup c ((L.enumFrom n).map (fun p => F p.1 p.2.1 p.2.2)) = some (F i c cl).2 := by
  intro L
  induction L with
  | nil =>
    intro n c cl _ hm
    simp at hm
  | cons q L ih =>
    intro n c cl hnd hm
    obtain ⟨c', cl'⟩ := q
    simp only [List.map_cons, List.nodup_cons] at hnd
    rw [List.enumFrom_cons, List.map_cons]
    have hps : F n c' cl' = ((F n c' cl').1, (F n c' cl').2) := rfl
    rcases List.mem_cons.mp hm with h | h
    · rw [Prod.mk.injEq] at h
      obtain ⟨h1, h2⟩ := h
      subst h1
      subst h2
      refine ⟨n, ?_⟩
      rw [hps, hF]
      simp [alookup]
    · have hne : c' ≠ c := by
        intro he
        exact hnd.1 (he ▸ List.mem_map.mpr ⟨(c, cl), h, rfl⟩)
      obtain ⟨i, hi⟩ := ih (n + 1) hnd.2 h
      refine ⟨i, ?_⟩
      rw [hps, hF]
      simpa [alookup, hne] using hi

theorem init_chDate (U : StrUtils) (m : MergedArgs)
    (onDisk : List (ClassId × OnDiskEntity)) (now : UTCTime) (pd : ParsedData)
    {c : ClassId} {cl : ClassModel}
    (hnd : (classKeys pd).Nodup) (hm : (c, cl) ∈ pd.classes) :
    ∃ i, chDate (initializeEntities U m onDisk now pd) c =
      some (getChangelogDate onDisk now c i) := by
  obtain ⟨i, hi⟩ := alookup_enumFrom_map
    (fun i c cl => (c, setOptions m (initializedEntity U onDisk now c i cl) cl.name))
    (fun i c cl => rfl) pd.classes 0 hnd hm
  refine ⟨i, ?_⟩
  unfold chDate initializeEntities
  rw [show pd.classes.enum = pd.classes.enumFrom 0 from rfl, hi]
  simp only [Option.map_some']
  rw [setOptions_changelogDate]
  rfl

theorem readJSONFiles_eq (fsys : List (String × OnDiskEntity)) (pd : ParsedData) :
    readJSONFiles fsys pd = readJSONentries fsys pd.classes := by
  unfold readJSONFiles
  suffices h : ∀ (L : List (ClassId × ClassModel)) (acc : List (ClassId × OnDiskEntity)),
      L.foldl (fun acc p =>
        match alookup p.2.name fsys with
        | some e => acc ++ [(p.1, e)]
        | none => acc) acc = acc ++ readJSONentries fsys L by
    rw [h pd.classes []]
    rfl
  intro L
  induction L with
  | nil =>
    intro acc
    simp [readJSONentries]
  | cons p L ih =>
    intro acc
    rw [List.foldl_cons]
    rcases hf : alookup p.2.name fsys with _ | e
    · rw [ih]
      unfold readJSONentries
      rw [List.filterMap_cons, hf]
      rfl
    · rw [ih]
      unfold readJSONentries
      rw [List.filterMap_cons, hf]
      simp

theorem readJSONentries_alookup_none (fsys : List (String × OnDiskEntity)) :
    ∀ (L : List (ClassId × ClassModel)) {c : ClassId},
    c ∉ L.map (·.1) → alookup c (readJSONentries fsys L) = none := by
  intro L
  induction L with
  | nil =>
    intro c _
    rfl
  | cons p L ih =>
    intro c hc
    simp only [List.map_cons, List.mem_cons] at hc
    push_neg at hc
    have hni : p.1 ≠ c := fun he => hc.1 he.symm
    unfold readJSONentries
    rw [List.filterMap_cons]
    rcases hf : alookup p.2.name fsys with _ | e
    · exact ih hc.2
    · simp only [Option.map_some', alookup, if_neg hni]
      exact ih hc.2

theorem readJSONentries_alookup (fsys : List (String × OnDiskEntity)) :
    ∀ (L : List (ClassId × ClassModel)) {c : ClassId} {cl : ClassModel},
    ((L.map (·.1)).Nodup) → (c, cl) ∈ L →
    alookup c (readJSONentries fsys L) = alookup cl.name fsys := by
  intro L
  induction L with
  | nil =>
    intro c cl _ hm
    simp at hm
  | cons p L ih =>
    intro c cl hnd hm
    obtain ⟨c2, cl2⟩ := p
    simp only [List.map_cons, List.nodup_cons] at hnd
    unfold readJSONentries
    rw [List.filterMap_cons]
    rcases List.mem_cons.mp hm with h | h
    · rw [Prod.mk.injEq] at h
      obtain ⟨h1, h2⟩ := h
      subst h1
      subst h2
      rcases hf : alookup cl.name fsys with _ | e
      · exact readJSONentries_alookup_none fsys L hnd.1
      · simp [alookup]
    · have hne : c2 ≠ c := by
        intro he
        exact hnd.1 (he ▸ List.mem_map.mpr ⟨(c, cl), h, rfl⟩)
      rcases hf : alookup cl2.name fsys with _ | e
      · exact ih hnd.2 h
      · simp only [Option.map_some', alookup, if_neg hne]
        exact ih hnd.2 h

theorem readJSONFiles_alookup (fsys : List (String × OnDiskEntity)) (pd : ParsedData)
    (hnd : (classKeys pd).Nodup) {c : ClassId} {cl : ClassModel}
    (hm : (c, cl) ∈ pd.classes) :
    alookup c (readJSONFiles fsys pd) = alookup cl.name fsys := by
  rw [readJSONFiles_eq]
  exact readJSONentries_alookup fsys pd.classes hnd hm

theorem alookup_filter_ne {α : Type} {k c : String} (h : k ≠ c) (l : List (String × α)) :
    alookup k (l.filter (fun p => p.1 != c)) = alookup k l := by
  induction l with
  | nil => rfl
  | cons p l ih =>
    obtain ⟨k2, v⟩ := p
    by_cases hk : k2 = c
    · subst hk
      have hkk : k2 ≠ k := fun he => h (he.symm)
      simp [alookup, List.filter_cons, hkk, ih]
    · by_cases hk2 : k2 = k
      · subst hk2
        simp [alookup, List.filter_cons, hk]
      · simp [alookup, List.filter_cons, hk, hk2, ih]

theorem alookup_filter_self {α : Type} (c : String) (l : List (String × α)) :
    alookup c (l.filter (fun p => p.1 != c)) = none := by
  induction l with
  | nil => rfl
  | cons p l ih =>
    obtain ⟨k2, v⟩ := p
    by_cases hk : k2 = c
    · simp [List.filter_cons, hk, ih]
    · simp [List.filter_cons, alookup, hk, ih]

theorem alookup_filter_none {α : Type} {k : String} {l : List (String × α)}
    (h : alookup k l = none) (q : String × α → Bool) :
    alookup k (l.filter q) = none := by
  induction l with
  | nil => rfl
  | cons p l ih =>
    obtain ⟨k2, v⟩ := p
    by_cases hk : k2 = k
    · subst hk
      simp [alookup] at h
    · simp only [alookup, if_neg hk] at h
      rcases hq : q (k2, v)
      · simp [List.filter_cons, hq, ih h]
      · simp [List.filter_cons, hq, alookup, hk, ih h]

theorem suppress_alookup_not_mem {supp : List ClassId} {c : ClassId} (h : c ∉ supp)
    (ents : EntityMap) :
    alookup c (suppressEntities supp ents) = alookup c ents := by
  induction supp generalizing ents with
  | nil => rfl
  | cons s supp ih =>
    simp only [List.mem_cons] at h
    push_neg at h
    unfold suppressEntities
    rw [List.foldl_cons]
    have := ih h.2 (ents.filter (fun p => p.1 != s))
    unfold suppressEntities at this
    rw [this]
    exact alookup_filter_ne h.1 ents

theorem suppress_alookup_mem {supp : List ClassId} {c : ClassId} (h : c ∈ supp)
    (ents : EntityMap) :
    alookup c (suppressEntities supp ents) = none := by
  induction supp generalizing ents with
  | nil => simp at h
  | cons s supp ih =>
    unfold suppressEntities
    rw [List.foldl_cons]
    rcases List.mem_cons.mp h with h1 | h1
    · subst h1
      have hnone : alookup c (ents.filter (fun p => p.1 != c)) = none :=
        alookup_filter_self c ents
      by_cases hm : c ∈ supp
      · exact ih hm _
      · have := suppress_alookup_not_mem hm (ents.filter (fun p => p.1 != c))
        unfold suppressEntities at this
        rw [this]
        exact hnone
    · exact ih h1 _

theorem createEntities_master (U : StrUtils) (fsys : List (String × OnDiskEntity))
    (now : UTCTime) (args : Args) (pd : ParsedData) (db : DatabaseTypes)
    (out : EntityMap) (pdOut : ParsedData)
    (hpd : args.parsedData = some pd) (hdb : args.databaseTypes = some db)
    (hndA : (assocKeys pd).Nodup) (hndC : (classKeys pd).Nodup)
    (h : createEntities U fsys now args = Except.ok (out, pdOut)) :
    ∃ supp resolved,
      resolveAll U pd
        (initializeEntities U (mergeWithDefaults args) (readJSONFiles fsys pd) now pd)
        = Except.ok (supp, resolved, pdOut) ∧
      out = suppressEntities supp resolved ∧
      supp = (classKeys pd).filter (fun c => isUserClass pd c) ∧
      (∀ k, relLen resolved k =
        ((classKeys pd).map (fun c => classContribution pd c k)).sum) ∧
      (∀ k, chDate resolved k =
        chDate (initializeEntities U (mergeWithDefaults args) (readJSONFiles fsys pd) now pd) k) ∧
      (∃ D2, pdOut = resolvedPd pd D2 ∧
        ∀ p ∈ pd.associations, (p.1 ∈ D2 ↔ p.2.afrom ∈ classKeys pd)) := by
  unfold createEntities at h
  rw [hpd, hdb] at h
  dsimp only at h
  by_cases hcond : (isNoSQL db && pd.associations.length != 0) = true
  · rw [if_pos hcond] at h
    simp at h
  rw [if_neg hcond] at h
  unfold fillEntities at h
  rcases hra : resolveAll U pd
      (initializeEntities U (mergeWithDefaults args) (readJSONFiles fsys pd) now pd)
      with e | r <;> rw [hra] at h
  · simp at h
  simp only [Except.ok.injEq, Prod.mk.injEq] at h
  obtain ⟨hout, hpdout⟩ := h
  have hra2 : (classKeys pd).foldlM (resolveStep U)
      ([], initializeEntities U (mergeWithDefaults args) (readJSONFiles fsys pd) now pd,
        resolvedPd pd []) = Except.ok r := by
    rw [resolvedPd_nil]
    exact hra
  obtain ⟨hm1, hm2, hm3, D2, hm4, hm5⟩ := resolveAll_fold_count U pd hndA hndC
    (classKeys pd) [] [] []
    (initializeEntities U (mergeWithDefaults args) (readJSONFiles fsys pd) now pd) r
    rfl (by simp) hra2
  refine ⟨r.1, r.2.1, ?_, hout.symm, by simpa using hm3, fun k => ?_, hm2, D2, ?_, ?_⟩
  · rw [← hpdout]
  · rw [hm1 k, init_relLen_zero]
    simp
  · rw [← hpdout, hm4]
  · intro p hp
    have := hm5 p hp
    simpa using this

theorem foldlM_error_ne {σ α : Type} (f : σ → α → Except Err σ)
    (hf : ∀ s a e, f s a = Except.error e → e ≠ Err.noSQLModeling) :
    ∀ (L : List α) (s0 : σ) (e : Err),
    L.foldlM f s0 = Except.error e → e ≠ Err.noSQLModeling := by
  intro L
  induction L with
  | nil =>
    intro s0 e h
    simp only [List.foldlM_nil] at h
    have h2 : Except.ok s0 = Except.error e := h
    simp at h2
  | cons a L ih =>
    intro s0 e h
    rw [List.foldlM_cons] at h
    rcases hstep : f s0 a with e2 | s1 <;> rw [hstep] at h
    · rw [except_bind_error] at h
      simp only [Except.error.injEq] at h
      subst h
      exact hf s0 a e2 hstep
    · rw [except_bind_ok] at h
      exact ih s1 e h

theorem fromSideStep_error_ne (U : StrUtils) (c : ClassId) (st : EntityMap × ParsedData)
    (aid : AssocId) (e : Err) (h : fromSideStep U c st aid = Except.error e) :
    e ≠ Err.noSQLModeling := by
  obtain ⟨ents, pd⟩ := st
  simp only [fromSideStep] at h
  rcases ha : alookup aid pd.associations with _ | a <;> rw [ha] at h <;> dsimp only at h
  · simp only [Except.error.injEq] at h
    subst h
    simp
  rcases hfm : alookup a.afrom pd.classes with _ | fromClass <;>
    rcases htm : alookup a.ato pd.classes with _ | toClass <;>
    rw [hfm, htm] at h <;> dsimp only at h
  · simp only [Except.error.injEq] at h
    subst h
    simp
  · simp only [Except.error.injEq] at h
    subst h
    simp
  · simp only [Except.error.injEq] at h
    subst h
    simp
  by_cases hcv : checkValidityOfAssociation fromClass.name toClass.name = true
  swap
  · rw [if_neg (by simpa using hcv)] at h
    simp only [Except.error.injEq] at h
    subst h
    simp
  rw [if_pos (by simpa using hcv)] at h
  rcases hentc : alookup c ents with _ | entC <;> rw [hentc] at h
  · simp only [Except.error.injEq] at h
    subst h
    simp
  dsimp only at h
  cases hat : a.type <;> rw [hat] at h <;> dsimp only at h
  · simp at h
  · by_cases htr : truthy a.injectedFieldInTo = true
    · rw [if_pos (by simpa using htr)] at h
      simp at h
    · rw [if_neg (by simpa using htr)] at h
      rcases hto : alookup a.ato ents with _ | entTo <;> rw [hto] at h <;> dsimp only at h
      · simp only [Except.error.injEq] at h
        subst h
        simp
      rcases hc2 : alookup c (pushRelationship ents a.ato entTo
          { relationshipId := entTo.relationships.length + 1,
            relationshipName := some (U.camelCase (lowerFirst fromClass.name)),
            otherEntityName := some (lowerFirst (U.camelCase fromClass.name)),
            relationshipType := .MANY_TO_ONE,
            otherEntityField :=
              some (lowerFirst (extractField a.injectedFieldInTo).otherEntityField),
            ownerSide := none, otherEntityRelationshipName := none }) with _ | entC2 <;>
        rw [hc2] at h
      · simp only [Except.error.injEq] at h
        subst h
        simp
      simp at h
  · by_cases hif : truthy a.injectedFieldInFrom = true
    · rw [if_pos (by simpa using hif)] at h
      simp at h
    · rw [if_neg (by simpa using hif)] at h
      simp at h
  · simp at h

theorem toSideStep_error_ne (U : StrUtils) (c : ClassId) (st : EntityMap × ParsedData)
    (aid : AssocId) (e : Err) (h : toSideStep U c st aid = Except.error e) :
    e ≠ Err.noSQLModeling := by
  obtain ⟨ents, pd⟩ := st
  unfold toSideStep at h
  repeat' split at h
  all_goals try (simp only [Except.error.injEq] at h; subst h; simp)
  all_goals simp at h

theorem setValidationsOfField_error_ne (pd : ParsedData) (fd : FieldRecord) (f : FieldId)
    (e : Err) (h : setValidationsOfField pd fd f = Except.error e) :
    e ≠ Err.noSQLModeling := by
  unfold setValidationsOfField at h
  split at h
  · simp only [Except.error.injEq] at h
    subst h
    simp
  split at h
  · simp at h
  · revert h
    apply foldlM_error_ne
    intro s a e2 h2
    split at h2
    · simp only [Except.error.injEq] at h2
      subst h2
      simp
    · split at h2 <;> simp at h2

theorem setFieldStep_error_ne (U : StrUtils) (pd : ParsedData) (c : ClassId)
    (ents : EntityMap) (f : FieldId) (e : Err)
    (h : setFieldStep U pd c ents f = Except.error e) : e ≠ Err.noSQLModeling := by
  unfold setFieldStep at h
  split at h
  · simp only [Except.error.injEq] at h
    subst h
    simp
  split at h
  · simp only [Except.error.injEq] at h
    subst h
    simp
  dsimp only at h
  split at h
  next e2 heq =>
    simp only [Except.error.injEq] at h
    subst h
    exact setValidationsOfField_error_ne _ _ _ _ heq
  · simp at h

theorem setFieldsOfEntity_error_ne (U : StrUtils) (pd : ParsedData) (ents : EntityMap)
    (c : ClassId) (e : Err) (h : setFieldsOfEntity U pd ents c = Except.error e) :
    e ≠ Err.noSQLModeling := by
  unfold setFieldsOfEntity at h
  split at h
  · simp only [Except.error.injEq] at h
    subst h
    simp
  revert h
  apply foldlM_error_ne
  intro s a e2 h2
  exact setFieldStep_error_ne U pd c s a e2 h2

theorem setRelationshipOfEntity_error_ne (U : StrUtils) (pd : ParsedData)
    (ents : EntityMap) (c : ClassId) (e : Err)
    (h : setRelationshipOfEntity U pd ents c = Except.error e) : e ≠ Err.noSQLModeling := by
  unfold setRelationshipOfEntity at h
  dsimp only at h
  rcases hff : (getRelatedAssociations c pd.associations).rfrom.foldlM
      (fromSideStep U c) (ents, pd) with e2 | st <;> rw [hff] at h
  · simp only [Except.error.injEq] at h
    subst h
    exact foldlM_error_ne _ (fun s a e3 h3 => fromSideStep_error_ne U c s a e3 h3) _ _ _ hff
  · exact foldlM_error_ne _ (fun s a e3 h3 => toSideStep_error_ne U c s a e3 h3) _ _ _ h

theorem resolveStep_error_ne (U : StrUtils) (st : List ClassId × EntityMap × ParsedData)
    (c : ClassId) (e : Err) (h : resolveStep U st c = Except.error e) :
    e ≠ Err.noSQLModeling := by
  obtain ⟨supp0, ents0, pd⟩ := st
  simp only [resolveStep] at h
  rcases hcl : alookup c pd.classes with _ | cl <;> rw [hcl] at h <;> dsimp only at h
  · simp only [Except.error.injEq] at h
    subst h
    simp
  rcases hsf : setFieldsOfEntity U pd ents0 c with e2 | ents1 <;> rw [hsf] at h <;>
    dsimp only at h
  · simp only [Except.error.injEq] at h
    subst h
    exact setFieldsOfEntity_error_ne _ _ _ _ _ hsf
  rcases hsr : setRelationshipOfEntity U pd ents1 c with e2 | stp <;> rw [hsr] at h <;>
    dsimp only at h
  · simp only [Except.error.injEq] at h
    subst h
    exact setRelationshipOfEntity_error_ne _ _ _ _ _ hsr
  · simp at h

theorem fillEntities_error_ne (U : StrUtils) (pd : ParsedData) (ents : EntityMap)
    (e : Err) (h : fillEntities U pd ents = Except.error e) : e ≠ Err.noSQLModeling := by
  unfold fillEntities at h
  split at h
  next e2 heq =>
    simp only [Except.error.injEq] at h
    subst h
    revert heq
    unfold resolveAll
    apply foldlM_error_ne
    intro s a e3 h3
    exact resolveStep_error_ne U s a e3 h3
  · simp at h

/-- A falsy descriptor decodes to the default split: other-entity field `id` and
an empty relationship name (lines 277-280). -/
theorem extractField_of_falsy {f : Option String} (h : truthy f = false) :
    extractField f = { otherEntityField := "id", relationshipName := "" } := by
  unfold extractField
  rw [if_neg (by rw [h]; exact Bool.false_ne_true)]

/-- Arithmetic of the per-association record counts: on a non-self-loop
association the counts on the two endpoints add up to `attributedTotal`, other
entities receive nothing, and the total is 1 or 2 — with 1 exactly when the
`to`-side descriptor is falsy and no inverse is synthesized. -/
theorem attributed_facts (a : Association) (hne : a.afrom ≠ a.ato) :
    attributedCount a a.afrom + attributedCount a a.ato = attributedTotal a ∧
    (∀ k, k ≠ a.afrom → k ≠ a.ato → attributedCount a k = 0) ∧
    1 ≤ attributedTotal a ∧ attributedTotal a ≤ 2 ∧
    (attributedTotal a = 1 ↔
      truthy a.injectedFieldInTo = false ∧ a.type ≠ Cardinality.ONE_TO_MANY) := by
  have hns : a.ato ≠ a.afrom := Ne.symm hne
  unfold attributedCount attributedTotal fromContribution toContribution
  refine ⟨?_, ?_, ?_, ?_, ?_⟩
  · rcases ht : truthy a.injectedFieldInTo <;>
      by_cases hty : a.type = Cardinality.ONE_TO_MANY <;>
      simp [ht, hty, hne, hns]
  · intro k hk1 hk2
    simp [hk1, hk2]
  · rcases ht : truthy a.injectedFieldInTo <;>
      by_cases hty : a.type = Cardinality.ONE_TO_MANY <;>
      simp [ht, hty]
  · rcases ht : truthy a.injectedFieldInTo <;>
      by_cases hty : a.type = Cardinality.ONE_TO_MANY <;>
      simp [ht, hty]
  · rcases ht : truthy a.injectedFieldInTo <;>
      by_cases hty : a.type = Cardinality.ONE_TO_MANY <;>
      simp [ht, hty]

/-- Content of the from-side step on a `ONE_TO_ONE` association (lines 303-314):
one record on the source entity; its `otherEntityRelationshipName` is the
lower-cased raw `injectedFieldInTo` descriptor, defaulting to the lower-cased
*source* class name; the model is untouched. -/
theorem fromSideStep_o2o (U : StrUtils) (c : ClassId) (ents : EntityMap) (pd : ParsedData)
    (aid : AssocId) (a : Association) (fromClass toClass : ClassModel) (entC : Entity)
    (out : EntityMap × ParsedData)
    (ha : alookup aid pd.associations = some a)
    (hfm : alookup a.afrom pd.classes = some fromClass)
    (htm : alookup a.ato pd.classes = some toClass)
    (hentc : alookup c ents = some entC)
    (hty : a.type = Cardinality.ONE_TO_ONE)
    (h : fromSideStep U c (ents, pd) aid = Except.ok out) :
    out = (pushRelationship ents c entC
      { baseRelationship (entC.relationships.length + 1) Cardinality.ONE_TO_ONE with
        relationshipName := some (U.camelCase (extractField a.injectedFieldInFrom).relationshipName)
        otherEntityName := some (lowerFirst (U.camelCase toClass.name))
        otherEntityField := some (lowerFirst (extractField a.injectedFieldInFrom).otherEntityField)
        ownerSide := some true
        otherEntityRelationshipName :=
          some (lowerFirst (orElseStr a.injectedFieldInTo fromClass.name)) }, pd) := by
  simp only [fromSideStep] at h
  rw [ha] at h
  dsimp only at h
  rw [hfm, htm] at h
  dsimp only at h
  by_cases hcv : checkValidityOfAssociation fromClass.name toClass.name = true
  swap
  · rw [if_neg (by simpa using hcv)] at h
    simp at h
  rw [if_pos (by simpa using hcv)] at h
  rw [hentc] at h
  dsimp only at h
  rw [hty] at h
  dsimp only at h
  simp only [Except.ok.injEq] at h
  exact h.symm

/-- Content of the from-side step on a `MANY_TO_ONE` association (lines 334-346):
a record is pushed on the source entity in *both* cases — decoded when
`injectedFieldInFrom` is truthy, bare otherwise — and the model is untouched. -/
theorem fromSideStep_m2o (U : StrUtils) (c : ClassId) (ents : EntityMap) (pd : ParsedData)
    (aid : AssocId) (a : Association) (fromClass toClass : ClassModel) (entC : Entity)
    (out : EntityMap × ParsedData)
    (ha : alookup aid pd.associations = some a)
    (hfm : alookup a.afrom pd.classes = some fromClass)
    (htm : alookup a.ato pd.classes = some toClass)
    (hentc : alookup c ents = some entC)
    (hty : a.type = Cardinality.MANY_TO_ONE)
    (h : fromSideStep U c (ents, pd) aid = Except.ok out) :
    out = (pushRelationship ents c entC
      (if truthy a.injectedFieldInFrom then
        { baseRelationship (entC.relationships.length + 1) Cardinality.MANY_TO_ONE with
          relationshipName := some (U.camelCase (extractField a.injectedFieldInFrom).relationshipName)
          otherEntityName := some (lowerFirst (U.camelCase toClass.name))
          otherEntityField := some (lowerFirst (extractField a.injectedFieldInFrom).otherEntityField) }
      else baseRelationship (entC.relationships.length + 1) Cardinality.MANY_TO_ONE), pd) := by
  simp only [fromSideStep] at h
  rw [ha] at h
  dsimp only at h
  rw [hfm, htm] at h
  dsimp only at h
  by_cases hcv : checkValidityOfAssociation fromClass.name toClass.name = true
  swap
  · rw [if_neg (by simpa using hcv)] at h
    simp at h
  rw [if_pos (by simpa using hcv)] at h
  rw [hentc] at h
  dsimp only at h
  rw [hty] at h
  dsimp only at h
  by_cases hif : truthy a.injectedFieldInFrom = true
  · rw [if_pos hif] at h
    rw [if_pos hif]
    simp only [Except.ok.injEq] at h
    exact h.symm
  · rw [if_neg hif] at h
    rw [if_neg hif]
    simp only [Except.ok.injEq] at h
    exact h.symm

/-- Content of the from-side step on a `ONE_TO_MANY` association without a
truthy `injectedFieldInTo` (lines 315-333): the inverse `MANY_TO_ONE` record is
synthesized on the target entity, the from-record is pushed on the source, and
the association's stored type is rewritten to `MANY_TO_ONE` in the model. -/
theorem fromSideStep_o2m_nosynth (U : StrUtils) (c : ClassId) (ents : EntityMap)
    (pd : ParsedData) (aid : AssocId) (a : Association) (fromClass toClass : ClassModel)
    (entC entTo : Entity) (out : EntityMap × ParsedData)
    (ha : alookup aid pd.associations = some a)
    (hfm : alookup a.afrom pd.classes = some fromClass)
    (htm : alookup a.ato pd.classes = some toClass)
    (hentc : alookup c ents = some entC)
    (hento : alookup a.ato ents = some entTo)
    (hne : c ≠ a.ato)
    (hty : a.type = Cardinality.ONE_TO_MANY)
    (hto : truthy a.injectedFieldInTo = false)
    (h : fromSideStep U c (ents, pd) aid = Except.ok out) :
    out = (pushRelationship
        (pushRelationship ents a.ato entTo
          { relationshipId := entTo.relationships.length + 1
            relationshipName := some (U.camelCase (lowerFirst fromClass.name))
            otherEntityName := some (lowerFirst (U.camelCase fromClass.name))
            relationshipType := Cardinality.MANY_TO_ONE
            otherEntityField := some (lowerFirst (extractField a.injectedFieldInTo).otherEntityField)
            ownerSide := none
            otherEntityRelationshipName := none })
        c entC
        { baseRelationship (entC.relationships.length + 1) Cardinality.ONE_TO_MANY with
          relationshipName := some (lowerFirst (U.camelCase
            (ifEmptyStr (extractField a.injectedFieldInFrom).relationshipName toClass.name)))
          otherEntityName := some (lowerFirst (U.camelCase toClass.name))
          otherEntityRelationshipName := some (lowerFirst fromClass.name) },
      pd.setAssociation aid { a with type := Cardinality.MANY_TO_ONE }) := by
  simp only [fromSideStep] at h
  rw [ha] at h
  dsimp only at h
  rw [hfm, htm] at h
  dsimp only at h
  by_cases hcv : checkValidityOfAssociation fromClass.name toClass.name = true
  swap
  · rw [if_neg (by simpa using hcv)] at h
    simp at h
  rw [if_pos (by simpa using hcv)] at h
  rw [hentc] at h
  dsimp only at h
  rw [hty] at h
  dsimp only at h
  rw [if_neg (by rw [hto]; exact Bool.false_ne_true)] at h
  rw [hento] at h
  dsimp only at h
  have hc2 : alookup c (pushRelationship ents a.ato entTo
      { relationshipId := entTo.relationships.length + 1,
        relationshipName := some (U.camelCase (lowerFirst fromClass.name)),
        otherEntityName := some (lowerFirst (U.camelCase fromClass.name)),
        relationshipType := .MANY_TO_ONE,
        otherEntityField :=
          some (lowerFirst (extractField a.injectedFieldInTo).otherEntityField),
        ownerSide := none, otherEntityRelationshipName := none }) = some entC := by
    rw [alookup_push_ne _ hne]
    exact hentc
  rw [hc2] at h
  dsimp only at h
  simp only [Except.ok.injEq] at h
  exact h.symm

/-- `dateFormatForLiquibase` splits into the increment-independent prefix and the
seconds suffix. -/
theorem dateFormat_decompose (now : UTCTime) (increment : Nat) :
    dateFormatForLiquibase now increment =
      datePrefix now ++ secondsSuffix (now.second + increment) := rfl

/-- Lexicographic comparison ignores a common prefix. -/
theorem charListLt_append (p : List Char) (x y : List Char) :
    charListLt (p ++ x) (p ++ y) = charListLt x y := by
  induction p with
  | nil => rfl
  | cons c p ih =>
    simp only [List.cons_append, charListLt, Nat.lt_irrefl, if_false]
    exact ih

/-- String comparison ignores a common prefix. -/
theorem strLt_append (p x y : String) : strLt (p ++ x) (p ++ y) = strLt x y := by
  unfold strLt
  rw [String.data_append, String.data_append, charListLt_append]

/-- Appending distinct strings to a common prefix yields distinct strings. -/
theorem string_append_ne (p : String) {x y : String} (h : x ≠ y) : p ++ x ≠ p ++ y := by
  intro he
  apply h
  have hd : (p ++ x).data = (p ++ y).data := by rw [he]
  rw [String.data_append, String.data_append] at hd
  exact String.ext (List.append_cancel_left hd)

/-- The two-digit seconds field is strictly monotone below the minute boundary. -/
theorem secondsSuffix_facts :
    ∀ a < 60, ∀ b < 60, a < b →
      strLt (secondsSuffix a) (secondsSuffix b) = true ∧
      secondsSuffix a ≠ secondsSuffix b := by
  decide

/-- Claim C1 (corrected): after a successful pipeline run the relationship
records of the resolved entity map are accounted for, per association, by
`attributedCount`; on a non-self-loop association the two endpoints together
receive `attributedTotal` records, which is never 0 and never more than 2 — but
the total is 1 exactly when the `to`-side descriptor is falsy and the
association is not a synthesizing `ONE_TO_MANY` (the from-side record is pushed
unconditionally, so a `MANY_TO_ONE` with only the `to` side specified totals 2,
not 1 as claimed). -/
theorem claim_C1 (U : StrUtils) (fsys : List (String × OnDiskEntity)) (now : UTCTime)
    (args : Args) (pd : ParsedData) (db : DatabaseTypes) (out : EntityMap) (pdOut : ParsedData)
    (hpd : args.parsedData = some pd) (hdb : args.databaseTypes = some db)
    (hndA : (assocKeys pd).Nodup) (hndC : (classKeys pd).Nodup)
    (hwf : ∀ p ∈ pd.associations, p.2.afrom ∈ classKeys pd ∧ p.2.ato ∈ classKeys pd)
    (h : createEntities U fsys now args = Except.ok (out, pdOut)) :
    ∃ supp resolved, out = suppressEntities supp resolved ∧
      (∀ k, relLen resolved k =
        (pd.associations.map (fun p => attributedCount p.2 k)).sum) ∧
      ∀ p ∈ pd.associations, p.2.afrom ≠ p.2.ato →
        (attributedCount p.2 p.2.afrom + attributedCount p.2 p.2.ato = attributedTotal p.2 ∧
         (∀ k, k ≠ p.2.afrom → k ≠ p.2.ato → attributedCount p.2 k = 0) ∧
         1 ≤ attributedTotal p.2 ∧ attributedTotal p.2 ≤ 2 ∧
         (attributedTotal p.2 = 1 ↔
           truthy p.2.injectedFieldInTo = false ∧ p.2.type ≠ Cardinality.ONE_TO_MANY)) := by
  obtain ⟨supp, resolved, hra, hout, hsupp, hrel, hch, D2, hm4, hm5⟩ :=
    createEntities_master U fsys now args pd db out pdOut hpd hdb hndA hndC h
  refine ⟨supp, resolved, hout, ?_, ?_⟩
  · intro k
    rw [hrel k, sum_classContribution pd k hndC hwf]
  · intro p hp hne
    exact attributed_facts p.2 hne

/-- Claim C1 counterexample: a `MANY_TO_ONE` association with only the `to`
side's injected field specified yields 2 relationship records across the two
endpoints, not the claimed 1. -/
theorem claim_C1_cex :
    (createEntities Utest [] tnow (argsOf pdM2Oto)).map
        (fun r => relLen r.1 "c1" + relLen r.1 "c2") = Except.ok 2 := rfl

/-- Claim C1 witness: the amended accounting instantiated on the `Author`/`Book`
model. -/
theorem claim_C1_witness :
    ∃ supp resolved, outAB = suppressEntities supp resolved ∧
      (∀ k, relLen resolved k =
        (pdAuthorBook.associations.map (fun p => attributedCount p.2 k)).sum) ∧
      ∀ p ∈ pdAuthorBook.associations, p.2.afrom ≠ p.2.ato →
        (attributedCount p.2 p.2.afrom + attributedCount p.2 p.2.ato = attributedTotal p.2 ∧
         (∀ k, k ≠ p.2.afrom → k ≠ p.2.ato → attributedCount p.2 k = 0) ∧
         1 ≤ attributedTotal p.2 ∧ attributedTotal p.2 ≤ 2 ∧
         (attributedTotal p.2 = 1 ↔
           truthy p.2.injectedFieldInTo = false ∧ p.2.type ≠ Cardinality.ONE_TO_MANY)) :=
  claim_C1 Utest [] tnow (argsOf pdAuthorBook) pdAuthorBook { noSQL := false } outAB pdAB1
    rfl rfl (by decide) (by decide) (by decide) rfl

/-- Claim C2 (confirmed): a `ONE_TO_MANY` association without a truthy
`injectedFieldInTo` synthesizes, on the target entity, exactly one additional
`MANY_TO_ONE` record whose `relationshipName` and `otherEntityName` are the
lower-cased camel-cased source class name (provided the out-of-scope lodash
`camelCase` commutes with `lowerFirst` on the class name, as it does on
already-camel-cased words), and the association's stored type is thereafter
`MANY_TO_ONE`. -/
theorem claim_C2 (U : StrUtils) (c : ClassId) (ents : EntityMap) (pd : ParsedData)
    (aid : AssocId) (a : Association) (fromClass toClass : ClassModel)
    (entC entTo : Entity) (out : EntityMap × ParsedData)
    (ha : alookup aid pd.associations = some a)
    (hfm : alookup a.afrom pd.classes = some fromClass)
    (htm : alookup a.ato pd.classes = some toClass)
    (hentc : alookup c ents = some entC)
    (hento : alookup a.ato ents = some entTo)
    (hne : c ≠ a.ato)
    (hty : a.type = Cardinality.ONE_TO_MANY)
    (hto : truthy a.injectedFieldInTo = false)
    (hcomm : U.camelCase (lowerFirst fromClass.name) = lowerFirst (U.camelCase fromClass.name))
    (h : fromSideStep U c (ents, pd) aid = Except.ok out) :
    alookup a.ato out.1 = some { entTo with relationships := entTo.relationships ++
      [{ relationshipId := entTo.relationships.length + 1
         relationshipType := Cardinality.MANY_TO_ONE
         relationshipName := some (lowerFirst (U.camelCase fromClass.name))
         otherEntityName := some (lowerFirst (U.camelCase fromClass.name))
         otherEntityField := some "id"
         ownerSide := none
         otherEntityRelationshipName := none }] } ∧
    alookup aid out.2.associations = some { a with type := Cardinality.MANY_TO_ONE } := by
  have hstep := fromSideStep_o2m_nosynth U c ents pd aid a fromClass toClass entC entTo out
    ha hfm htm hentc hento hne hty hto h
  constructor
  · rw [hstep]
    dsimp only
    rw [alookup_push_ne _ (Ne.symm hne), alookup_push_self, extractField_of_falsy hto, hcomm]
    rfl
  · rw [hstep]
    dsimp only [ParsedData.setAssociation]
    exact alookup_aupdate_self aid _ _

/-- Claim C2 witness: the synthesized inverse on the `Author`/`Book` model. -/
theorem claim_C2_witness :
    alookup "c2" stepAB.1 = some { mkEmptyEntity "d2" "book" with relationships := [
      { relationshipId := 1, relationshipType := Cardinality.MANY_TO_ONE,
        relationshipName := some "author", otherEntityName := some "author",
        otherEntityField := some "id", ownerSide := none,
        otherEntityRelationshipName := none }] } ∧
    alookup "a1" stepAB.2.associations = some
      { afrom := "c1", ato := "c2", type := Cardinality.MANY_TO_ONE,
        injectedFieldInFrom := some "books", injectedFieldInTo := none } :=
  claim_C2 Utest "c1" entsAB pdAuthorBook "a1"
    { afrom := "c1", ato := "c2", type := Cardinality.ONE_TO_MANY,
      injectedFieldInFrom := some "books", injectedFieldInTo := none }
    (mkClass "Author") (mkClass "Book") (mkEmptyEntity "d1" "author")
    (mkEmptyEntity "d2" "book") stepAB
    rfl rfl rfl rfl rfl (by decide) rfl rfl rfl rfl

/-- Claim C3 (corrected): on a `MANY_TO_ONE` association a from-side record is
pushed *unconditionally* (line 346 sits outside the `if` of line 336): decoded —
name, target class name, decoded other-entity field — when `injectedFieldInFrom`
is truthy, and bare otherwise; the claimed absence of any record when the
descriptor is missing does not hold. -/
theorem claim_C3 (U : StrUtils) (c : ClassId) (ents : EntityMap) (pd : ParsedData)
    (aid : AssocId) (a : Association) (fromClass toClass : ClassModel) (entC : Entity)
    (out : EntityMap × ParsedData)
    (ha : alookup aid pd.associations = some a)
    (hfm : alookup a.afrom pd.classes = some fromClass)
    (htm : alookup a.ato pd.classes = some toClass)
    (hentc : alookup c ents = some entC)
    (hty : a.type = Cardinality.MANY_TO_ONE)
    (h : fromSideStep U c (ents, pd) aid = Except.ok out) :
    out.2 = pd ∧
    alookup c out.1 = some { entC with relationships := entC.relationships ++
      [if truthy a.injectedFieldInFrom then
        { baseRelationship (entC.relationships.length + 1) Cardinality.MANY_TO_ONE with
          relationshipName := some (U.camelCase (extractField a.injectedFieldInFrom).relationshipName)
          otherEntityName := some (lowerFirst (U.camelCase toClass.name))
          otherEntityField := some (lowerFirst (extractField a.injectedFieldInFrom).otherEntityField) }
      else baseRelationship (entC.relationships.length + 1) Cardinality.MANY_TO_ONE] } := by
  have hstep := fromSideStep_m2o U c ents pd aid a fromClass toClass entC out
    ha hfm htm hentc hty h
  constructor
  · rw [hstep]
  · rw [hstep]
    exact alookup_push_self ents c entC _

/-- Claim C3 counterexample: a `MANY_TO_ONE` association with no injected field
on either side still leaves one (bare) record on the from entity, not zero. -/
theorem claim_C3_cex :
    (createEntities Utest [] tnow (argsOf pdM2Onone)).map (fun r => relLen r.1 "c1")
      = Except.ok 1 := rfl

/-- Claim C3 witness: the unconditional bare record on the no-descriptor model. -/
theorem claim_C3_witness :
    stepM2Onone.2 = pdM2Onone ∧
    alookup "c1" stepM2Onone.1 = some { mkEmptyEntity "d1" "author" with relationships := [
      { relationshipId := 1, relationshipType := Cardinality.MANY_TO_ONE,
        relationshipName := none, otherEntityName := none, otherEntityField := none,
        ownerSide := none, otherEntityRelationshipName := none }] } :=
  claim_C3 Utest "c1" entsAB pdM2Onone "a1"
    { afrom := "c1", ato := "c2", type := Cardinality.MANY_TO_ONE,
      injectedFieldInFrom := none, injectedFieldInTo := none }
    (mkClass "Author") (mkClass "Book") (mkEmptyEntity "d1" "author") stepM2Onone
    rfl rfl rfl rfl rfl rfl

/-- Claim C4 (corrected): on a `ONE_TO_ONE` association the from-side record's
`otherEntityRelationshipName` is `lowerFirst` of the *raw* `injectedFieldInTo`
descriptor (not its decoded name) when present, and of the *source* class name
(not the target class name) when absent — the source evaluates
`_.lowerFirst(association.injectedFieldInTo || fromClass.name)` at line 314. -/
theorem claim_C4 (U : StrUtils) (c : ClassId) (ents : EntityMap) (pd : ParsedData)
    (aid : AssocId) (a : Association) (fromClass toClass : ClassModel) (entC : Entity)
    (out : EntityMap × ParsedData)
    (ha : alookup aid pd.associations = some a)
    (hfm : alookup a.afrom pd.classes = some fromClass)
    (htm : alookup a.ato pd.classes = some toClass)
    (hentc : alookup c ents = some entC)
    (hty : a.type = Cardinality.ONE_TO_ONE)
    (h : fromSideStep U c (ents, pd) aid = Except.ok out) :
    out.2 = pd ∧
    alookup c out.1 = some { entC with relationships := entC.relationships ++
      [{ baseRelationship (entC.relationships.length + 1) Cardinality.ONE_TO_ONE with
         relationshipName := some (U.camelCase (extractField a.injectedFieldInFrom).relationshipName)
         otherEntityName := some (lowerFirst (U.camelCase toClass.name))
         otherEntityField := some (lowerFirst (extractField a.injectedFieldInFrom).otherEntityField)
         ownerSide := some true
         otherEntityRelationshipName :=
           some (lowerFirst (orElseStr a.injectedFieldInTo fromClass.name)) }] } := by
  have hstep := fromSideStep_o2o U c ents pd aid a fromClass toClass entC out
    ha hfm htm hentc hty h
  constructor
  · rw [hstep]
  · rw [hstep]
    exact alookup_push_self ents c entC _

/-- Claim C4 counterexample: with `injectedFieldInTo` absent the emitted
`otherEntityRelationshipName` is the lower-cased *source* class name (`author`),
not the target class name (`book`); with a raw descriptor `owner(name)` it is the
raw text, not the decoded name `owner`. -/
theorem claim_C4_cex :
    (createEntities Utest [] tnow (argsOf pdO2Onone)).map
        (fun r => (alookup "c1" r.1).map (fun e =>
          e.relationships.map (fun rr => rr.otherEntityRelationshipName)))
      = Except.ok (some [some "author"]) ∧
    (createEntities Utest [] tnow (argsOf pdO2Oraw)).map
        (fun r => (alookup "c1" r.1).map (fun e =>
          e.relationships.map (fun rr => rr.otherEntityRelationshipName)))
      = Except.ok (some [some "owner(name)"]) := ⟨rfl, rfl⟩

/-- Claim C4 witness: the one-to-one from-side record on the no-descriptor
model. -/
theorem claim_C4_witness :
    stepO2Onone.2 = pdO2Onone ∧
    alookup "c1" stepO2Onone.1 = some { mkEmptyEntity "d1" "author" with relationships := [
      { relationshipId := 1, relationshipType := Cardinality.ONE_TO_ONE,
        relationshipName := some "book", otherEntityName := some "book",
        otherEntityField := some "id", ownerSide := some true,
        otherEntityRelationshipName := some "author" }] } :=
  claim_C4 Utest "c1" entsAB pdO2Onone "a1"
    { afrom := "c1", ato := "c2", type := Cardinality.ONE_TO_ONE,
      injectedFieldInFrom := some "book", injectedFieldInTo := none }
    (mkClass "Author") (mkClass "Book") (mkEmptyEntity "d1" "author") stepO2Onone
    rfl rfl rfl rfl rfl rfl

/-- Claim C5 (code bug): with no persisted snapshot the allocated changelog date
is *not* the claimed 14-digit `YYYYMMDDHHMMSS` string.  A one-digit minute makes
line 145 emit the literal text `0\x7bminute\x7d` (the `$` of the template
interpolation is missing), producing a 21-character identifier; and the seconds
field is `(seconds + increment) % 60` with no carry into the minutes, so one
second past `00:30:59` formats with minute `30` and seconds `00`. -/
theorem claim_C5 :
    getChangelogDate [] tMin5 "c1" 0 = "20160101000\x7bminute\x7d30" ∧
    (getChangelogDate [] tMin5 "c1" 0).length ≠ 14 ∧
    getChangelogDate [] tWrap "c1" 1 = datePrefix tWrap ++ "00" ∧
    dateFormatForLiquibase tMin5 0 = "20160101000\x7bminute\x7d30" :=
  ⟨rfl, by decide, rfl, rfl⟩

/-- Claim C6 (corrected): changelog identifiers of snapshot-less classes are
pairwise distinct and strictly increasing in the ordinal *provided* the run's
base seconds plus the larger ordinal stays below the minute boundary; the
carry-free `% 60` of line 147 breaks both guarantees across the boundary. -/
theorem claim_C6 (onDisk : List (ClassId × OnDiskEntity)) (now : UTCTime)
    (ci cj : ClassId) (i j : Nat)
    (hci : alookup ci onDisk = none) (hcj : alookup cj onDisk = none)
    (hj : now.second + j < 60) (hij : i < j) :
    strLt (getChangelogDate onDisk now ci i) (getChangelogDate onDisk now cj j) = true ∧
    getChangelogDate onDisk now ci i ≠ getChangelogDate onDisk now cj j := by
  have hlt : now.second + i < now.second + j := by omega
  have hi60 : now.second + i < 60 := by omega
  obtain ⟨h1, h2⟩ := secondsSuffix_facts (now.second + i) hi60 (now.second + j) hj hlt
  have e1 : getChangelogDate onDisk now ci i = dateFormatForLiquibase now i := by
    unfold getChangelogDate
    rw [hci]
  have e2 : getChangelogDate onDisk now cj j = dateFormatForLiquibase now j := by
    unfold getChangelogDate
    rw [hcj]
  rw [e1, e2]
  constructor
  · rw [dateFormat_decompose, dateFormat_decompose, strLt_append]
    exact h1
  · rw [dateFormat_decompose, dateFormat_decompose]
    exact string_append_ne _ h2

/-- Claim C6 counterexample: across the minute boundary the identifier of
ordinal 1 sorts strictly *below* that of ordinal 0, and ordinals 60 and 0
collide. -/
theorem claim_C6_cex :
    strLt (getChangelogDate [] tWrap "c2" 1) (getChangelogDate [] tWrap "c1" 0) = true ∧
    getChangelogDate [] tWrap "c3" 60 = getChangelogDate [] tWrap "c1" 0 :=
  ⟨rfl, rfl⟩

/-- Claim C6 witness: ordinals 0 and 1 at clock `tnow`. -/
theorem claim_C6_witness :
    strLt (getChangelogDate [] tnow "c1" 0) (getChangelogDate [] tnow "c2" 1) = true ∧
    getChangelogDate [] tnow "c1" 0 ≠ getChangelogDate [] tnow "c2" 1 :=
  claim_C6 [] tnow "c1" "c2" 0 1 rfl rfl (by decide) (by decide)

/-- Claim C7 (confirmed): when the on-disk snapshot loaded for a class carries a
changelog date, the resolved entity of that class keeps exactly the snapshot's
date — the freshly formatted value is never consulted (lines 115-117) — so a
second run over the first run's snapshots reproduces the dates. -/
theorem claim_C7 (U : StrUtils) (fsys : List (String × OnDiskEntity)) (now : UTCTime)
    (args : Args) (pd : ParsedData) (db : DatabaseTypes) (out : EntityMap) (pdOut : ParsedData)
    (c : ClassId) (cl : ClassModel) (od : OnDiskEntity)
    (hpd : args.parsedData = some pd) (hdb : args.databaseTypes = some db)
    (hndA : (assocKeys pd).Nodup) (hndC : (classKeys pd).Nodup)
    (hm : (c, cl) ∈ pd.classes)
    (hdisk : alookup cl.name fsys = some od)
    (huser : isUserClass pd c = false)
    (h : createEntities U fsys now args = Except.ok (out, pdOut)) :
    chDate out c = some od.changelogDate := by
  obtain ⟨supp, resolved, hra, hout, hsupp, hrel, hch, D2, hm4, hm5⟩ :=
    createEntities_master U fsys now args pd db out pdOut hpd hdb hndA hndC h
  have hcnot : c ∉ supp := by
    rw [hsupp]
    intro hmem
    have hq := (List.mem_filter.mp hmem).2
    rw [huser] at hq
    exact Bool.false_ne_true hq
  have h1 : chDate out c = chDate resolved c := by
    unfold chDate
    rw [hout, suppress_alookup_not_mem hcnot]
  obtain ⟨i, hi⟩ := init_chDate U (mergeWithDefaults args) (readJSONFiles fsys pd) now pd hndC hm
  rw [h1, hch c, hi]
  have hrd : alookup c (readJSONFiles fsys pd) = some od :=
    (readJSONFiles_alookup fsys pd hndC hm).trans hdisk
  unfold getChangelogDate
  rw [hrd]

/-- Claim C7 witness: the `Author` snapshot's date survives the run. -/
theorem claim_C7_witness : chDate outAB7 "c1" = some "20150101000000" :=
  claim_C7 Utest fsysAB tnow (argsOf pdAuthorBook) pdAuthorBook { noSQL := false } outAB7 pdAB1
    "c1" (mkClass "Author") { changelogDate := "20150101000000" }
    rfl rfl (by decide) (by decide) (by decide) rfl rfl rfl

/-- Claim C8 (confirmed): `createEntities` fails with the NoSQL-modeling error
exactly when the storage descriptor is non-relational and the association set is
non-empty (lines 48, 70-75), and under that condition it never returns an entity
map — the check precedes initialization, so no partial output exists. -/
theorem claim_C8 (U : StrUtils) (fsys : List (String × OnDiskEntity)) (now : UTCTime)
    (args : Args) (pd : ParsedData) (db : DatabaseTypes)
    (hpd : args.parsedData = some pd) (hdb : args.databaseTypes = some db) :
    (createEntities U fsys now args = Except.error Err.noSQLModeling ↔
      (isNoSQL db = true ∧ pd.associations ≠ [])) ∧
    ((isNoSQL db = true ∧ pd.associations ≠ []) →
      ∀ res, createEntities U fsys now args ≠ Except.ok res) := by
  unfold createEntities
  rw [hpd, hdb]
  dsimp only
  by_cases hcond : (isNoSQL db && pd.associations.length != 0) = true
  · rw [if_pos hcond]
    rw [Bool.and_eq_true] at hcond
    obtain ⟨h1, h2⟩ := hcond
    have h3 : pd.associations ≠ [] := by
      intro hnil
      rw [hnil] at h2
      simp at h2
    exact ⟨⟨fun _ => ⟨h1, h3⟩, fun _ => rfl⟩, fun _ res hh => by simp at hh⟩
  · rw [if_neg hcond]
    have hc2 : ¬(isNoSQL db = true ∧ pd.associations ≠ []) := by
      intro hand
      apply hcond
      rw [Bool.and_eq_true]
      refine ⟨hand.1, ?_⟩
      simp only [bne_iff_ne, ne_eq, List.length_eq_zero]
      exact hand.2
    constructor
    · constructor
      · intro he
        exact absurd rfl (fillEntities_error_ne U pd _ _ he)
      · intro hand
        exact absurd hand hc2
    · intro hand
      exact absurd hand hc2

/-- Claim C8 witness: the NoSQL descriptor with one declared association. -/
theorem claim_C8_witness :
    (createEntities Utest [] tnow argsNoSQL = Except.error Err.noSQLModeling ↔
      (isNoSQL { noSQL := true } = true ∧ pdAuthorBook.associations ≠ [])) ∧
    ((isNoSQL { noSQL := true } = true ∧ pdAuthorBook.associations ≠ []) →
      ∀ res, createEntities Utest [] tnow argsNoSQL ≠ Except.ok res) :=
  claim_C8 Utest [] tnow argsNoSQL pdAuthorBook { noSQL := true } rfl rfl

/-- Claim C9 (confirmed): classes named `User` case-insensitively are removed
from the final map, and the removal is applied to the map the resolution pass
returns (lines 204-206 run only after the per-class loop of `resolveAll` has
completed — the output *is* `suppressEntities` of that pass's result), while
lookups of every non-`User` class — including entities holding records that
point into the suppressed one — yield exactly the resolution pass's entity,
untouched by the removal. -/
theorem claim_C9 (U : StrUtils) (fsys : List (String × OnDiskEntity)) (now : UTCTime)
    (args : Args) (pd : ParsedData) (db : DatabaseTypes) (out : EntityMap) (pdOut : ParsedData)
    (hpd : args.parsedData = some pd) (hdb : args.databaseTypes = some db)
    (hndA : (assocKeys pd).Nodup) (hndC : (classKeys pd).Nodup)
    (h : createEntities U fsys now args = Except.ok (out, pdOut)) :
    ∃ resolved : EntityMap,
      resolveAll U pd
        (initializeEntities U (mergeWithDefaults args) (readJSONFiles fsys pd) now pd)
        = Except.ok ((classKeys pd).filter (fun c => isUserClass pd c), resolved, pdOut) ∧
      out = suppressEntities ((classKeys pd).filter (fun c => isUserClass pd c)) resolved ∧
      (∀ c, c ∈ classKeys pd → isUserClass pd c = true → alookup c out = none) ∧
      (∀ c, isUserClass pd c = false → alookup c out = alookup c resolved) := by
  obtain ⟨supp, resolved, hra, hout, hsupp, hrel, hch, D2, hm4, hm5⟩ :=
    createEntities_master U fsys now args pd db out pdOut hpd hdb hndA hndC h
  rw [hsupp] at hra hout
  refine ⟨resolved, hra, hout, ?_, ?_⟩
  · intro c hc hu
    have hmem : c ∈ (classKeys pd).filter (fun c => isUserClass pd c) :=
      List.mem_filter.mpr ⟨hc, hu⟩
    rw [hout]
    exact suppress_alookup_mem hmem resolved
  · intro c hu
    have hnm : c ∉ (classKeys pd).filter (fun c => isUserClass pd c) := by
      intro hmem
      have hq := (List.mem_filter.mp hmem).2
      rw [hu] at hq
      exact Bool.false_ne_true hq
    rw [hout]
    exact suppress_alookup_not_mem hnm resolved

/-- Claim C9 witness: the `User`/`Book` model — `User` vanishes while `Book`
keeps its record pointing into it. -/
theorem claim_C9_witness :
    ∃ resolved : EntityMap,
      resolveAll Utest pdUser
        (initializeEntities Utest (mergeWithDefaults (argsOf pdUser))
          (readJSONFiles [] pdUser) tnow pdUser)
        = Except.ok ((classKeys pdUser).filter (fun c => isUserClass pdUser c),
            resolved, pdUser) ∧
      outUser = suppressEntities
        ((classKeys pdUser).filter (fun c => isUserClass pdUser c)) resolved ∧
      (∀ c, c ∈ classKeys pdUser → isUserClass pdUser c = true → alookup c outUser = none) ∧
      (∀ c, isUserClass pdUser c = false → alookup c outUser = alookup c resolved) :=
  claim_C9 Utest [] tnow (argsOf pdUser) pdUser { noSQL := false } outUser pdUser
    rfl rfl (by decide) (by decide) rfl

/-- Claim C10 (confirmed): `createEntities` returns the caller's model with every
processed `ONE_TO_MANY` association lacking a truthy `injectedFieldInTo`
rewritten in place to `MANY_TO_ONE` (line 327), so a second call on the same
model behaves differently on such associations: concretely, on the
`Author`/`Book` model the first run leaves a `ONE_TO_MANY` from-record and one
synthesized target record, while the second run emits a `MANY_TO_ONE`
from-record and synthesizes nothing. -/
theorem claim_C10 (U : StrUtils) (fsys : List (String × OnDiskEntity)) (now : UTCTime)
    (args : Args) (pd : ParsedData) (db : DatabaseTypes) (out : EntityMap) (pdOut : ParsedData)
    (aid : AssocId) (a : Association)
    (hpd : args.parsedData = some pd) (hdb : args.databaseTypes = some db)
    (hndA : (assocKeys pd).Nodup) (hndC : (classKeys pd).Nodup)
    (h : createEntities U fsys now args = Except.ok (out, pdOut))
    (ha : alookup aid pd.associations = some a)
    (hty : a.type = Cardinality.ONE_TO_MANY)
    (hto : truthy a.injectedFieldInTo = false)
    (hfrom : a.afrom ∈ classKeys pd) :
    alookup aid pdOut.associations = some { a with type := Cardinality.MANY_TO_ONE } ∧
    (createEntities Utest [] tnow (argsOf pdAuthorBook)).map (fun r =>
        ((alookup "c1" r.1).map (fun e => e.relationships.map (fun rr => rr.relationshipType)),
         relLen r.1 "c2"))
      = Except.ok (some [Cardinality.ONE_TO_MANY], 1) ∧
    (createEntities Utest [] tnow (argsOf pdAuthorBook)).map (fun r => r.2)
      = Except.ok pdAB1 ∧
    (createEntities Utest [] tnow (argsOf pdAB1)).map (fun r =>
        ((alookup "c1" r.1).map (fun e => e.relationships.map (fun rr => rr.relationshipType)),
         relLen r.1 "c2"))
      = Except.ok (some [Cardinality.MANY_TO_ONE], 0) := by
  obtain ⟨supp, resolved, hra, hout, hsupp, hrel, hch, D2, hm4, hm5⟩ :=
    createEntities_master U fsys now args pd db out pdOut hpd hdb hndA hndC h
  refine ⟨?_, rfl, rfl, rfl⟩
  have hpmem : (aid, a) ∈ pd.associations := mem_alookup ha
  have haidD : aid ∈ D2 := (hm5 (aid, a) hpmem).mpr hfrom
  rw [hm4]
  rw [show (resolvedPd pd D2).associations = pd.associations.map (resolveOne D2) from rfl]
  rw [alookup_map_resolveOne, ha]
  simp only [Option.map_some', Option.some.injEq]
  unfold resolveOne
  dsimp only
  rw [if_pos ⟨haidD, hty, hto⟩]

/-- Claim C10 witness: the `Author`/`Book` model — the returned model carries the
rewritten association, the first and second runs disagree as described. -/
theorem claim_C10_witness :
    alookup "a1" pdAB1.associations = some
      { afrom := "c1", ato := "c2", type := Cardinality.MANY_TO_ONE,
        injectedFieldInFrom := some "books", injectedFieldInTo := none } ∧
    (createEntities Utest [] tnow (argsOf pdAuthorBook)).map (fun r =>
        ((alookup "c1" r.1).map (fun e => e.relationships.map (fun rr => rr.relationshipType)),
         relLen r.1 "c2"))
      = Except.ok (some [Cardinality.ONE_TO_MANY], 1) ∧
    (createEntities Utest [] tnow (argsOf pdAuthorBook)).map (fun r => r.2)
      = Except.ok pdAB1 ∧
    (createEntities Utest [] tnow (argsOf pdAB1)).map (fun r =>
        ((alookup "c1" r.1).map (fun e => e.relationships.map (fun rr => rr.relationshipType)),
         relLen r.1 "c2"))
      = Except.ok (some [Cardinality.MANY_TO_ONE], 0) :=
  claim_C10 Utest [] tnow (argsOf pdAuthorBook) pdAuthorBook { noSQL := false } outAB pdAB1
    "a1"
    { afrom := "c1", ato := "c2", type := Cardinality.ONE_TO_MANY,
      injectedFieldInFrom := some "books", injectedFieldInTo := none }
    rfl rfl (by decide) (by decide) rfl rfl rfl rfl (by decide)
